import Mathlib

/-!
Verification of the core algorithms of the avr-i2c-scale firmware:
the CRC-5 engine, the adaptive histogram ("buckets") filter, and the
two-wire (TWI) client transaction state machine.

The definitions below are shallow embeddings of the C sources:
machine integers are modelled as `Nat` with explicit reduction
`% 2^w` exactly where the C type forces a wrap, the `int32_t`
difference in `buckets_add` is modelled as an `Int` through a
two's-complement conversion, and the C arithmetic right shift on a
negative `int32_t` is modelled as floor division (`Int.fdiv`) by
`2^shift`, matching the generated AVR code.

Layout: all definitions first, then all theorems.
-/

set_option maxHeartbeats 1000000
set_option maxRecDepth 40000

/-! ### CRC-5 engine (twi.c)

`crc_table` is the 16-entry nibble lookup table for CRC-5-ITU
(polynomial 0x15, reflected input/output).  The table is indexed only
through `&&& 0x0f`, so it is embedded as a total function on `Nat`
matching the array on 0..15. -/

def crc_table (i : Nat) : Nat :=
  match i with
  | 0 => 0x00 | 1 => 0x0d | 2 => 0x1a | 3 => 0x17
  | 4 => 0x1f | 5 => 0x12 | 6 => 0x05 | 7 => 0x08
  | 8 => 0x15 | 9 => 0x18 | 10 => 0x0f | 11 => 0x02
  | 12 => 0x0a | 13 => 0x07 | 14 => 0x10 | 15 => 0x1d
  | _ => 0

/-- `twi_update_crc`: fold one byte into the CRC accumulator,
low nibble first, then high nibble. -/
def twi_update_crc (crc val : Nat) : Nat :=
  let c := crc_table ((crc ^^^ val) &&& 0x0f) ^^^ (crc >>> 4)
  crc_table ((c ^^^ (val >>> 4)) &&& 0x0f) ^^^ (c >>> 4)

/-- CRC of a byte sequence starting from accumulator 0. -/
def crc_run (s : List Nat) : Nat :=
  s.foldl twi_update_crc 0

/-! ### TWI client state machine (twi.c)

Commands (twi.h), protocol states, and the ISR-owned transaction
buffer.  Hardware register writes (`TWI0.SCTRLB`, `TWI0.SDATA`) and the
debug trace are not part of the protocol state and are omitted; the
received data byte (`TWI0.SDATA`) is an input of the event. -/

def TWI_CMD_SLEEP : Nat := 0x00
def TWI_CMD_MEASURE_WEIGHT : Nat := 0x50
def TWI_CMD_TRACK_WEIGHT : Nat := 0x51
def TWI_CMD_OPEN_VALVE : Nat := 0x52
def TWI_CMD_CLOSE_VALVE : Nat := 0x53
def TWI_CMD_GET_TEMP : Nat := 0x54
def TWI_CMD_GET_CALIB : Nat := 0x55
def TWI_CMD_SET_CALIB : Nat := 0x56
def TWI_CMD_ENABLE_WD : Nat := 0x57
def TWI_CMD_CALIB_WRITE : Nat := 0xA0
def TWI_CMD_SET_ADDR : Nat := 0xA3
def TWI_CMD_ADDR_WRITE : Nat := 0xA6
def TWI_CMD_DISABLE_WD : Nat := 0xA9
def TWI_CMD_GET_VERSION : Nat := 0xE0
def TWI_CMD_NONE : Nat := 0xFF

def IDLE : Nat := 0
def STARTED : Nat := 1
def IN_PROGRESS : Nat := 2

/-- Pointwise update of a `Nat`-indexed byte buffer. -/
def fset (f : Nat → Nat) (i v : Nat) : Nat → Nat :=
  fun k => if k = i then v else f k

/-- The `twi` transaction buffer (global struct in twi.c).
All byte/flag fields; `buf` is the 8-byte payload buffer. -/
structure Twi where
  cmd : Nat
  task : Nat
  index : Nat
  count : Nat
  crc : Nat
  buf : Nat → Nat
  state : Nat
  blocked : Bool
  loaded : Bool
  busy : Bool

/-- Initial value of the global struct: `{.cmd = TWI_CMD_NONE, .task = TWI_CMD_NONE}`,
remaining members zero-initialised. -/
def twi_init_state : Twi :=
  { cmd := TWI_CMD_NONE, task := TWI_CMD_NONE, index := 0, count := 0,
    crc := 0, buf := fun _ => 0, state := IDLE,
    blocked := false, loaded := false, busy := false }

/-- Build-time constants from version.h (generated outside src/);
their concrete values are irrelevant to every claim below. -/
def VERSION_MAJOR : Nat := 0
def VERSION_MINOR : Nat := 0
def VERSION_PATCH : Nat := 0
def GIT_HASH : Nat := 0
def GIT_DIRTY : Bool := false

/-- Packed 5-byte `version_info` record `{major, minor, patch|dirty, hash:u16}`. -/
def version_info_bytes (i : Nat) : Nat :=
  match i with
  | 0 => VERSION_MAJOR % 256
  | 1 => VERSION_MINOR % 256
  | 2 => (if GIT_DIRTY then 0x80 ||| VERSION_PATCH else VERSION_PATCH) % 256
  | 3 => GIT_HASH % 256
  | 4 => GIT_HASH / 256 % 256
  | _ => 0

/-- `prepare_recv`: expected payload byte count for the just-received
command byte.  `sizeof(calib_data) = 6` (packed `{offset:u32, scale:u16}`,
src/nvm.h). -/
def prepare_recv (t : Twi) : Twi :=
  { t with count :=
      if t.cmd = TWI_CMD_SET_CALIB then 6
      else if t.cmd = TWI_CMD_CALIB_WRITE ∨ t.cmd = TWI_CMD_SET_ADDR ∨
              t.cmd = TWI_CMD_ADDR_WRITE ∨ t.cmd = TWI_CMD_DISABLE_WD then 1
      else 0 }

/-- Commands that set `blocked` in `finish_recv` (the write-type
commands, via the case fallthrough chain). -/
def twi_blocking_cmds : List Nat :=
  [TWI_CMD_OPEN_VALVE, TWI_CMD_CLOSE_VALVE, TWI_CMD_ENABLE_WD, TWI_CMD_DISABLE_WD,
   TWI_CMD_SET_ADDR, TWI_CMD_ADDR_WRITE, TWI_CMD_SET_CALIB, TWI_CMD_CALIB_WRITE]

/-- `finish_recv`: finalise a host-write transaction (NACK issued to the
bus, state back to IDLE, task handed to the dispatcher). -/
def finish_recv (t : Twi) : Twi :=
  let t1 : Twi := { t with state := IDLE }
  if t1.cmd = TWI_CMD_GET_VERSION then
    { t1 with
      task := TWI_CMD_NONE
      count := 5
      buf := fun i => if i < 5 then version_info_bytes i else t1.buf i
      loaded := true }
  else if t1.cmd ∈ twi_blocking_cmds then
    { t1 with blocked := true, task := t1.cmd }
  else
    { t1 with task := t1.cmd }

/-- Wrapping byte subtraction `(a - b) : uint8_t`. -/
def sub8 (a b : Nat) : Nat := (a % 256 + 256 - b % 256) % 256

/-- `prepare_send`: command-specific payload transform before a master
read; `tms` is `timer_get_time_ms()`. -/
def prepare_send (tms : Nat) (t : Twi) : Twi :=
  if t.cmd = TWI_CMD_TRACK_WEIGHT ∧ t.loaded then
    { t with buf := fset t.buf 4 (sub8 tms (t.buf 5)), count := 5 }
  else t

/-- Bus events seen by `ISR(TWI0_TWIS_vect)`, decoded from `SSTATUS`:
address phase with direction bit, stop condition, data phase in master
read direction (with the RXACK flag), data phase in master write
direction (carrying the received byte), or none of APIF/DIF. -/
inductive TwiEvent where
  | addr (dir : Bool)
  | stop
  | sendByte (rxack : Bool)
  | recvByte (data : Nat)
  | spurious

/-- One execution of `ISR(TWI0_TWIS_vect)`. -/
def twi_isr (tms : Nat) (t : Twi) (ev : TwiEvent) : Twi :=
  match ev with
  | .addr dir =>
      if dir ∧ t.loaded then
        -- Master read
        let t1 := prepare_send tms t
        { t1 with state := STARTED, index := 0, crc := 0, busy := true }
      else if ¬dir ∧ ¬t.blocked then
        -- Master write
        { t with state := STARTED, index := 0, loaded := false, busy := true }
      else
        { t with state := IDLE }
  | .stop => { t with state := IDLE }
  | .sendByte rxack =>
      if (rxack ∧ t.state ≠ STARTED) ∨ t.index > t.count then
        { t with state := IDLE }
      else if t.index = t.count then
        -- emits the trailer byte `crc & 0x1f`
        { t with index := t.index + 1 }
      else
        let d := t.buf t.index
        { t with
          crc := twi_update_crc t.crc d
          index := t.index + 1
          state := IN_PROGRESS }
  | .recvByte data =>
      if t.state = STARTED then
        -- Recv first byte (the command byte)
        let t1 := prepare_recv { t with cmd := data % 256 }
        if t1.count > 0 then
          { t1 with task := TWI_CMD_NONE, state := IN_PROGRESS }
        else
          finish_recv t1
      else if t.index < t.count then
        -- Recv data
        let t1 := { t with
          buf := fset t.buf t.index (data % 256)
          index := t.index + 1 }
        if t1.index < t1.count then t1 else finish_recv t1
      else
        { t with state := IDLE }
  | .spurious => { t with state := IDLE }

/-- Result record filled in by `twi_read` (struct twi_data). -/
structure TwiData where
  task : Nat
  count : Nat
  buf : Nat → Nat

/-- `twi_read`: consume a completed transaction (task context, under
interrupt masking).  Bytes of the caller record beyond `count` are left
at their initialised value 0. -/
def twi_read (t : Twi) : TwiData × Twi :=
  if t.task ≠ TWI_CMD_NONE ∧ t.state ≠ IN_PROGRESS then
    ({ task := t.task, count := t.count,
       buf := fun i => if i < t.count then t.buf i else 0 },
     { t with
       task := TWI_CMD_NONE
       blocked := false })
  else
    ({ task := TWI_CMD_NONE, count := 0, buf := fun _ => 0 }, t)

/-- Run the ISR over a list of bus events. -/
def twi_run (tms : Nat) (t : Twi) (evs : List TwiEvent) : Twi :=
  evs.foldl (twi_isr tms) t

def twi_c6_wit : Twi :=
  { twi_init_state with
    loaded := true
    state := STARTED
    count := 2
    buf := fun _ => 0x41 }

/-! ### Response staging (`twi_prepare_load` / `twi_write` / `twi_write_P`)
interleaved with the ISR

`twi_write`/`twi_write_P` run in task context: `cli()`, then the
sleep-wait loop `while (twi.state != IDLE) { sei(); sleep_cpu(); cli(); }`,
then (still with interrupts masked) either bail out because an
unconsumed task is pending, or stage `count`/`loaded` and copy the
payload, and finally `sei()`.  The system below interleaves those
accessor steps with ISR executions, which are enabled exactly when
interrupts are unmasked.  `n`/`data` are the accessor's arguments
(`twi_write_P` differs only in the address space the source bytes come
from, so one machine covers both). -/

/-- Program points of `twi_write`/`twi_write_P`. -/
inductive LoadPC where
  | entry    -- about to execute cli()
  | check    -- interrupts masked, about to test `twi.state != IDLE`
  | sleeping -- interrupts re-enabled, CPU sleeping until an interrupt
  | ready    -- observed state == IDLE, about to test `twi.task`
  | copy     -- count/loaded staged, about to memcpy the payload
  | fin      -- about to execute the final sei()
  | done
deriving DecidableEq

/-- `memcpy(twi.buf, data, n)`. -/
def copy_buf (data : Nat → Nat) (n : Nat) (buf : Nat → Nat) : Nat → Nat :=
  fun i => if i < n then data i % 256 else buf i

/-- Whole-system state: the shared `twi` struct, the accessor's program
counter, the global interrupt flag, and the accessor's arguments. -/
structure LoadSys where
  twi : Twi
  pc : LoadPC
  ie : Bool
  n : Nat
  data : Nat → Nat

/-- Step labels: an ISR execution or an accessor step. -/
inductive StepLabel where
  | isr
  | acc
deriving DecidableEq

/-- Small-step relation of the interleaved system.  ISR steps can fire
only while interrupts are enabled; accessor steps follow the control
flow of `twi_prepare_load`/`twi_write`. -/
inductive LoadStep : LoadSys → StepLabel → LoadSys → Prop where
  | isr (s : LoadSys) (tms : Nat) (ev : TwiEvent) (hie : s.ie = true) :
      LoadStep s .isr { s with twi := twi_isr tms s.twi ev }
  | entry (s : LoadSys) (hpc : s.pc = .entry) :
      LoadStep s .acc { s with ie := false, pc := .check }
  | check_busy (s : LoadSys) (hpc : s.pc = .check) (hst : s.twi.state ≠ IDLE) :
      LoadStep s .acc { s with ie := true, pc := .sleeping }
  | wake (s : LoadSys) (hpc : s.pc = .sleeping) :
      LoadStep s .acc { s with ie := false, pc := .check }
  | check_idle (s : LoadSys) (hpc : s.pc = .check) (hst : s.twi.state = IDLE) :
      LoadStep s .acc { s with pc := .ready }
  | ready_pending (s : LoadSys) (hpc : s.pc = .ready)
      (htask : s.twi.task ≠ TWI_CMD_NONE) :
      LoadStep s .acc { s with pc := .fin }
  | ready_stage (s : LoadSys) (hpc : s.pc = .ready)
      (htask : s.twi.task = TWI_CMD_NONE) :
      LoadStep s .acc
        { s with twi := { s.twi with count := s.n % 256, loaded := true }, pc := .copy }
  | copy_step (s : LoadSys) (hpc : s.pc = .copy) :
      LoadStep s .acc
        { s with twi := { s.twi with buf := copy_buf s.data s.n s.twi.buf }, pc := .fin }
  | fin_step (s : LoadSys) (hpc : s.pc = .fin) :
      LoadStep s .acc { s with ie := true, pc := .done }

/-- Any interleaving of accessor and ISR steps. -/
def LoadReach (s s' : LoadSys) : Prop :=
  Relation.ReflTransGen (fun a b => ∃ l, LoadStep a l b) s s'

/-- Accessor invoked: at its entry point with interrupts enabled,
on an arbitrary shared state. -/
def LoadInit (s : LoadSys) : Prop := s.pc = .entry ∧ s.ie = true

/-- Masking invariant of the accessor: between the idle check and the
final `sei()` interrupts stay masked, and at the staging points the
observed IDLE state still holds (the ISR cannot have run since it was
observed). -/
def LoadInv (s : LoadSys) : Prop :=
  ((s.pc = .check ∨ s.pc = .ready ∨ s.pc = .copy ∨ s.pc = .fin) → s.ie = false) ∧
  ((s.pc = .ready ∨ s.pc = .copy) → s.twi.state = IDLE)

def c9w0 : LoadSys :=
  { twi := twi_init_state, pc := LoadPC.entry, ie := true, n := 1, data := fun _ => 5 }

def c9w2 : LoadSys :=
  { twi := twi_init_state, pc := LoadPC.ready, ie := false, n := 1, data := fun _ => 5 }

def c9w3 : LoadSys :=
  { c9w2 with
    twi := { c9w2.twi with count := c9w2.n % 256, loaded := true }
    pc := LoadPC.copy }

/-- Accessor-only interleavings (the portion of the accessor run after
its wait loop, during which no ISR step is possible: interrupts stay
masked). -/
def LoadReachAcc (s s' : LoadSys) : Prop :=
  Relation.ReflTransGen (fun a b => LoadStep a StepLabel.acc b) s s'

def c10w0 : LoadSys :=
  { twi := { twi_init_state with task := TWI_CMD_CLOSE_VALVE },
    pc := LoadPC.ready, ie := false, n := 3, data := fun _ => 7 }

def c10w2 : LoadSys :=
  { c10w0 with pc := LoadPC.done, ie := true }

/-! ### Adaptive histogram (buckets.c)

`buckets` holds 8 bins of `uint32_t` accumulators and `uint8_t`
counts, a `uint32_t` base, the current `shift`, and the circular
active window `[0, upper) ∪ [lower, 8)`.  `lower`/`upper` are `int8_t`
in C but remain in `[0, 8]` on every reachable state, so they are
embedded as `Nat`; `shift` is `uint8_t` in C but stays far below 256
on every reachable state (a shift of an `int32_t` by 32 or more is
already undefined in C), so it too is embedded as plain `Nat`.
The loops of `buckets_deflate` run at most four iterations each
(`upper, lower ∈ [0, 8]`) and are unrolled accordingly, each iteration
keeping its own guard. -/

def U32 : Nat := 4294967296

structure Buckets where
  accu : Nat → Nat
  count : Nat → Nat
  base : Nat
  shift : Nat
  lower : Nat
  upper : Nat
  min_shift : Nat

/-- The zero-initialised global after `buckets_init(min_shift)`. -/
def buckets_init (ms : Nat) : Buckets :=
  { accu := fun _ => 0, count := fun _ => 0, base := 0, shift := 0,
    lower := 0, upper := 0, min_shift := ms }

/-- `buckets_reset`: clear bins, shift and window (base and min_shift
are kept, matching the C code). -/
def buckets_reset (b : Buckets) : Buckets :=
  { b with
    accu := fun _ => 0
    count := fun _ => 0
    shift := 0
    lower := 0
    upper := 0 }

def buckets_empty (b : Buckets) : Prop := b.upper = 0

instance (b : Buckets) : Decidable (buckets_empty b) := by
  unfold buckets_empty
  infer_instance

/-- `buckets_merge(dst, src0)`. -/
def buckets_merge (dst src0 : Nat) (b : Buckets) : Buckets :=
  { b with
    accu := fset b.accu dst ((b.accu src0 + b.accu (src0 + 1)) % U32)
    count := fset b.count dst ((b.count src0 + b.count (src0 + 1)) % 256) }

/-- One guarded iteration of the low-side merge loop
(`for (i = 0, j = 0; i + 1 < upper; ++j, i += 2) merge(j, i)`). -/
def deflate_lo_step (b : Buckets) (j i : Nat) : Buckets :=
  if i + 1 < b.upper then buckets_merge j i b else b

/-- One guarded iteration of the high-side merge loop
(`for (i = 7, j = 7; i - 1 >= lower; --j, i -= 2) merge(j, i - 1)`). -/
def deflate_hi_step (b : Buckets) (j i : Nat) : Buckets :=
  if b.lower + 1 ≤ i then buckets_merge j (i - 1) b else b

/-- Copy bin `src` to bin `dst` (the odd-window leftover copies). -/
def copy_slot (b : Buckets) (dst src : Nat) : Buckets :=
  { b with
    accu := fset b.accu dst (b.accu src)
    count := fset b.count dst (b.count src) }

/-- One slot of the `memset` over `[lo, hi)`. -/
def clear_slot (b : Buckets) (lo hi k : Nat) : Buckets :=
  if lo ≤ k ∧ k < hi then
    { b with accu := fset b.accu k 0, count := fset b.count k 0 }
  else b

/-- `memset(accu + lo, 0, ...)` over the slot range `[lo, hi) ⊆ [0, 8)`. -/
def clear_range (b : Buckets) (lo hi : Nat) : Buckets :=
  clear_slot (clear_slot (clear_slot (clear_slot (clear_slot (clear_slot
    (clear_slot (clear_slot b lo hi 0) lo hi 1) lo hi 2) lo hi 3) lo hi 4)
      lo hi 5) lo hi 6) lo hi 7

/-- The low-side merge loop of `buckets_deflate` (at most 4 iterations
for `upper ≤ 8`). -/
def deflate_lo (b : Buckets) : Buckets :=
  deflate_lo_step (deflate_lo_step (deflate_lo_step
    (deflate_lo_step b 0 0) 1 2) 2 4) 3 6

/-- `if ((upper & 0x1) != 0) { ... copy bin upper-1 to (upper-1)/2 }`. -/
def deflate_odd_upper (b : Buckets) : Buckets :=
  if b.upper % 2 = 1 then copy_slot b ((b.upper - 1) / 2) (b.upper - 1) else b

/-- The high-side merge loop of `buckets_deflate`. -/
def deflate_hi (b : Buckets) : Buckets :=
  deflate_hi_step (deflate_hi_step (deflate_hi_step
    (deflate_hi_step b 7 7) 6 5) 5 3) 4 1

/-- `if ((lower & 0x1) != 0) { ... copy bin lower to (8+lower)/2 }`. -/
def deflate_odd_lower (b : Buckets) : Buckets :=
  if b.lower % 2 = 1 then copy_slot b ((8 + b.lower) / 2) b.lower else b

/-- `++shift; memset the interior; shrink the window`. -/
def deflate_finish (b : Buckets) : Buckets :=
  { clear_range { b with shift := b.shift + 1 } ((b.upper + 1) / 2) ((8 + b.lower) / 2) with
    upper := (b.upper + 1) / 2
    lower := (8 + b.lower) / 2 }

/-- `buckets_deflate`: merge adjacent pairs from both ends of the
active window inward, copy an odd leftover bin, bump `shift`, clear the
interior, and shrink the window. -/
def buckets_deflate (b : Buckets) : Buckets :=
  deflate_finish (deflate_odd_lower (deflate_hi (deflate_odd_upper (deflate_lo b))))

/-- Two's-complement reinterpretation of a `uint32_t` value as
`int32_t`. -/
def toI32 (n : Nat) : Int :=
  if n % U32 < 2147483648 then (n % U32 : Int) else (n % U32 : Int) - (U32 : Int)

/-- Two's-complement narrowing of an integer to `int8_t`: wrap mod 256
into `[-128, 128)`. -/
def toI8 (n : Int) : Int :=
  if n % 256 < 128 then n % 256 else n % 256 - 256

/-- `int8_t i = ((int32_t)val - (int32_t)base) >> shift`:
two's-complement difference, arithmetic right shift = floor division
by `2^shift`, then the assignment into the `int8_t` variable narrows
the `int32_t` shift result mod 256 into `[-128, 128)`. -/
def bucket_index (b : Buckets) (val : Nat) : Int :=
  toI8 (Int.fdiv (toI32 (val + U32 - b.base % U32)) ((2 : Int) ^ b.shift))

/-- The break condition of the `for (;;)` loop in `buckets_add`: the
computed signed bin index fits the window (wrapping negative indices to
the upper bins). -/
def bucket_fits (b : Buckets) (i : Int) : Prop :=
  (i < 0 ∧ (b.upper : Int) ≤ i + 8) ∨ (0 ≤ i ∧ i < (b.lower : Int))

instance (b : Buckets) (i : Int) : Decidable (bucket_fits b i) := by
  unfold bucket_fits
  infer_instance

/-- The `for (;;)` deflation loop of `buckets_add`, with fuel (the
proofs below show fuel 33 always suffices on reachable states). -/
def add_loop (val : Nat) (b : Buckets) (fuel : Nat) : Option (Buckets × Int) :=
  match fuel with
  | 0 => none
  | fuel + 1 =>
      if bucket_fits b (bucket_index b val) then
        some (b, bucket_index b val)
      else add_loop val (buckets_deflate b) fuel

/-- `accu[i] += val; ++count[i];`. -/
def buckets_bump (b : Buckets) (i val : Nat) : Buckets :=
  { b with
    accu := fset b.accu i ((b.accu i + val) % U32)
    count := fset b.count i ((b.count i + 1) % 256) }

/-- `buckets_add`, also returning the bin index finally used. -/
def buckets_add_idx (val : Nat) (b : Buckets) : Option (Buckets × Nat) :=
  let b0 := if b.upper = 0 then
      { b with shift := b.min_shift, base := val, upper := 1, lower := 8 }
    else b
  match add_loop val b0 33 with
  | none => none
  | some (b1, i) =>
      if i < 0 then
        let i8 := (i + 8).toNat
        let b2 := if i8 < b1.lower then { b1 with lower := i8 } else b1
        some (buckets_bump b2 i8 val, i8)
      else
        let iN := i.toNat
        let b2 := if b1.upper ≤ iN then { b1 with upper := iN + 1 } else b1
        some (buckets_bump b2 iN val, iN)

def buckets_add (val : Nat) (b : Buckets) : Option Buckets :=
  Option.map Prod.fst (buckets_add_idx val b)

/-- Run a list of insertions. -/
def buckets_runFrom (b : Buckets) (vals : List Nat) : Option Buckets :=
  match vals with
  | [] => some b
  | v :: rest =>
      match buckets_add v b with
      | none => none
      | some b2 => buckets_runFrom b2 rest

/-- A session: `buckets_reset` on the initialised state, then the
insertions. -/
def buckets_session (ms : Nat) (vals : List Nat) : Option Buckets :=
  buckets_runFrom (buckets_reset (buckets_init ms)) vals

/-! ### buckets_filter (buckets.c)

The `accu_t` variant matching this buckets.c (fields `sum`, `count`,
`total`, `span`; the first is the `uint32_t` aggregate, the rest are
`uint8_t`) — its header is not part of src/, the field widths follow
the byte-wise serialisation of the result in main.c. -/

structure AccuT where
  sum : Nat
  count : Nat
  total : Nat
  span : Nat
deriving DecidableEq

/-- Sum of the eight bin counters as accumulated into `uint8_t total`. -/
def buckets_total (b : Buckets) : Nat :=
  (b.count 0 + b.count 1 + b.count 2 + b.count 3 + b.count 4 + b.count 5 +
    b.count 6 + b.count 7) % 256

/-- The trimming threshold `total / BUCKET_COUNT` (integer division). -/
def buckets_thresh (b : Buckets) : Nat := buckets_total b / 8

/-- Upward scan: first index `s, s+1, ...` (at most `fuel` candidates)
whose count reaches the threshold. -/
def findGE (cnt : Nat → Nat) (t s fuel : Nat) : Option Nat :=
  match fuel with
  | 0 => none
  | fuel + 1 => if t ≤ cnt s then some s else findGE cnt t (s + 1) fuel

/-- `buckets_start`: scan `[lower, 8)` first, then from 0 (the second
loop of the C code is unbounded and runs past the array — undefined
behaviour — iff no bin reaches the threshold, which `none` marks). -/
def buckets_start (b : Buckets) (t : Nat) : Option Nat :=
  match findGE b.count t b.lower (8 - b.lower) with
  | some s => some s
  | none => findGE b.count t 0 8

/-- Downward scan: first `e, e-1, ...` (at most `fuel` candidates, stop
at 0) with `count (e-1)` reaching the threshold, returning `e`. -/
def findGEdn (cnt : Nat → Nat) (t e fuel : Nat) : Option Nat :=
  match fuel with
  | 0 => none
  | fuel + 1 =>
      if e = 0 then none
      else if t ≤ cnt (e - 1) then some e
      else findGEdn cnt t (e - 1) fuel

/-- `buckets_end`: scan `(0, upper]` downward first, then from 8 (the
second C loop underflows the array — undefined behaviour — iff no bin
reaches the threshold, which `none` marks). -/
def buckets_end (b : Buckets) (t : Nat) : Option Nat :=
  match findGEdn b.count t b.upper b.upper with
  | some e => some e
  | none => findGEdn b.count t 8 8

/-- The summation loop `for (; i < end; ++i)` accumulating into the
`uint32_t` sum and `uint8_t` count of the result. -/
def accum_range (b : Buckets) (sum cnt i e fuel : Nat) : Nat × Nat :=
  match fuel with
  | 0 => (sum, cnt)
  | fuel + 1 =>
      if i < e then
        accum_range b ((sum + b.accu i) % U32) ((cnt + b.count i) % 256) (i + 1) e fuel
      else (sum, cnt)

/-- `buckets_filter`. -/
def buckets_filter (b : Buckets) : Option AccuT :=
  let total := buckets_total b
  let thresh := total / 8
  match buckets_start b thresh, buckets_end b thresh with
  | some s, some e =>
      let span0 := (e + 256 - s - 1) % 256
      let wrap := e ≤ s
      let p := if wrap then accum_range b 0 0 s 8 8 else (0, 0)
      let i0 := if wrap then 0 else s
      let span1 := if wrap then (span0 + 8) % 256 else span0
      let span2 := (span1 ||| (b.shift <<< 3)) % 256
      let q := accum_range b p.1 p.2 i0 e 8
      some { sum := q.1, count := q.2, total := total, span := span2 }
  | _, _ => none

/-- The concrete state of the C5 scenario: full window, bin counts
`[1, 5, 5, 5, 5, 5, 5, 1]`, bin sums `100·i`. -/
def c5_counts : Nat → Nat :=
  fun i => if i = 0 then 1 else if i < 7 then 5 else if i = 7 then 1 else 0

def c5_state : Buckets :=
  { accu := fun i => if i < 8 then 100 * i else 0
    count := c5_counts
    base := 0
    shift := 0
    lower := 8
    upper := 8
    min_shift := 0 }

/-! ### Session invariant, conservation and termination of buckets_add -/

/-- Sum of the eight bins of a `Nat`-indexed bin array. -/
def sum8 (f : Nat → Nat) : Nat :=
  f 0 + f 1 + f 2 + f 3 + f 4 + f 5 + f 6 + f 7

/-- Reachable-state invariant of the bucket struct: bins hold in-range
machine values; either the histogram is empty (fresh reset) or the
window `[0, upper) ∪ [lower, 8)` is well-formed with `base` a valid
`uint32_t` and all bins outside the window zero. -/
def Good (b : Buckets) : Prop :=
  (∀ i, i < 8 → b.accu i < U32 ∧ b.count i < 256) ∧
  ((b.upper = 0 ∧ b.lower = 0 ∧ b.shift = 0 ∧
      (∀ i, i < 8 → b.accu i = 0 ∧ b.count i = 0)) ∨
   (1 ≤ b.upper ∧ b.upper ≤ b.lower ∧ b.lower ≤ 8 ∧ b.base < U32 ∧
      (∀ i, i < 8 → b.upper ≤ i → i < b.lower → b.accu i = 0 ∧ b.count i = 0)))

/-! ### Session-level facts (buckets_runFrom / buckets_session) -/

/-- Number of bins inside the active window `[0, upper) ∪ [lower, 8)`. -/
def occupied (b : Buckets) : Nat :=
  b.upper + (8 - b.lower)

/-- A concrete pre-deflate state for the C4 witness: window
`[0, 3) ∪ [7, 8)`, distinct bin values. -/
def bex4 : Buckets :=
  { accu := fun k => 100 * (k + 1)
    count := fun k => k + 1
    base := 0
    shift := 2
    lower := 7
    upper := 3
    min_shift := 2 }

/-! ## Theorems -/

theorem crc_table_lt (i : Nat) : crc_table i < 32 := by
  unfold crc_table
  split <;> decide

theorem shiftRight4_le (n : Nat) : n >>> 4 ≤ n := by
  rw [Nat.shiftRight_eq_div_pow]
  exact Nat.div_le_self n (2 ^ 4)

theorem twi_update_crc_lt (crc val : Nat) (h : crc < 32) :
    twi_update_crc crc val < 32 := by
  unfold twi_update_crc
  have h4 : crc >>> 4 < 32 := Nat.lt_of_le_of_lt (shiftRight4_le crc) h
  have h1 : crc_table ((crc ^^^ val) &&& 0x0f) ^^^ (crc >>> 4) < 32 := by
    have := Nat.xor_lt_two_pow (n := 5) (crc_table_lt ((crc ^^^ val) &&& 0x0f)) h4
    simpa using this
  have h2 : (crc_table ((crc ^^^ val) &&& 0x0f) ^^^ (crc >>> 4)) >>> 4 < 32 :=
    Nat.lt_of_le_of_lt (shiftRight4_le _) h1
  have := Nat.xor_lt_two_pow (n := 5)
    (crc_table_lt ((crc_table ((crc ^^^ val) &&& 0x0f) ^^^ (crc >>> 4) ^^^ (val >>> 4)) &&& 0x0f)) h2
  simpa using this

theorem crc_run_lt (s : List Nat) : crc_run s < 32 := by
  suffices h : ∀ c, c < 32 → s.foldl twi_update_crc c < 32 by
    exact h 0 (by decide)
  induction s with
  | nil => intro c hc; simpa using hc
  | cons v t ih =>
      intro c hc
      exact ih (twi_update_crc c v) (twi_update_crc_lt c v hc)

/-- Folding the accumulator value itself (as the trailer byte) into the
CRC always yields 0; finite check over the 32 reachable accumulators. -/
theorem twi_update_crc_self (c : Nat) (h : c < 32) : twi_update_crc c c = 0 := by
  revert h
  revert c
  decide

/-- **C1**: for every byte sequence S, running the nibble-table CRC-5
over S, appending the trailer byte `crc &&& 0x1f`, and re-running the
CRC over S followed by that trailer yields an accumulator whose low
5 bits are zero. -/
theorem crc_roundtrip (s : List Nat) :
    crc_run (s ++ [crc_run s &&& 0x1f]) &&& 0x1f = 0 := by
  have hlt : crc_run s < 32 := crc_run_lt s
  have htrailer : crc_run s &&& 0x1f = crc_run s := by
    have h5 : crc_run s &&& 0x1f = crc_run s % 32 := by
      have := Nat.and_pow_two_sub_one_eq_mod (crc_run s) 5
      norm_num at this
      exact this
    rw [h5, Nat.mod_eq_of_lt hlt]
  have happ : crc_run (s ++ [crc_run s &&& 0x1f])
      = twi_update_crc (crc_run s) (crc_run s &&& 0x1f) := by
    unfold crc_run
    rw [List.foldl_append]
    rfl
  rw [happ, htrailer, twi_update_crc_self (crc_run s) hlt]
  decide

/-- **C6 counterexample**: starting from the reset state with the CRC
accumulator artificially at 7, the address-phase event that starts a
host-write transaction leaves the accumulator at 7 (the claim says it
is reset there), and the received command and payload bytes leave it at
7 as well (the claim says each is folded in): the receive path of the
ISR never touches `twi.crc`. -/
theorem twi_c6_cex :
    (twi_run 0 { twi_init_state with crc := 7 } [TwiEvent.addr false]).crc = 7 ∧
    (twi_run 0 { twi_init_state with crc := 7 }
      [TwiEvent.addr false, TwiEvent.recvByte TWI_CMD_SET_CALIB]).crc = 7 ∧
    (twi_run 0 { twi_init_state with crc := 7 }
      [TwiEvent.addr false, TwiEvent.recvByte TWI_CMD_SET_CALIB,
       TwiEvent.recvByte 0xAB]).crc = 7 ∧
    (7 : Nat) ≠ 0 := by
  refine ⟨rfl, rfl, rfl, by decide⟩


theorem prepare_recv_crc (t : Twi) : (prepare_recv t).crc = t.crc := rfl

theorem finish_recv_crc (t : Twi) : (finish_recv t).crc = t.crc := by
  by_cases h1 : t.cmd = TWI_CMD_GET_VERSION
  · simp [finish_recv, h1]
  · by_cases h2 : t.cmd ∈ twi_blocking_cmds <;> simp [finish_recv, h1, h2]

theorem twi_isr_recv_crc (tms d : Nat) (t : Twi) :
    (twi_isr tms t (TwiEvent.recvByte d)).crc = t.crc := by
  by_cases hs : t.state = STARTED
  · simp [twi_isr, hs, apply_ite Twi.crc, finish_recv_crc, prepare_recv]
  · by_cases hi : t.index < t.count <;>
      simp [twi_isr, hs, hi, apply_ite Twi.crc, finish_recv_crc]

/-- **C6 (amended)**: the CRC accumulator is reset at the address phase
of a host-read transaction and each transmitted payload byte is folded
into it; on the host-write path (write address phase, received bytes)
the ISR never modifies the accumulator. -/
theorem twi_c6_amended (tms d : Nat) (t : Twi) (rxack : Bool) :
    ((twi_isr tms t (TwiEvent.addr false)).crc = t.crc) ∧
    ((twi_isr tms t (TwiEvent.recvByte d)).crc = t.crc) ∧
    (t.loaded = true → (twi_isr tms t (TwiEvent.addr true)).crc = 0) ∧
    ((rxack = false ∨ t.state = STARTED) → t.index < t.count →
      (twi_isr tms t (TwiEvent.sendByte rxack)).crc
        = twi_update_crc t.crc (t.buf t.index)) := by
  refine ⟨?_, twi_isr_recv_crc tms d t, ?_, ?_⟩
  · by_cases hb : t.blocked <;> simp [twi_isr, hb]
  · intro hl
    simp [twi_isr, hl]
  · intro h1 h2
    have hcond : ¬((rxack = true ∧ t.state ≠ STARTED) ∨ t.index > t.count) := by
      rcases h1 with h | h
      · subst h
        simp
        omega
      · simp [h]
        omega
    have hne : ¬(t.index = t.count) := by omega
    simp only [twi_isr]
    rw [if_neg (by simpa using hcond), if_neg hne]

/-- **C6 amended witness**: concrete instantiation (a loaded 2-byte
response, transmission in the STARTED state). -/
theorem twi_c6_amended_witness :
    twi_c6_wit.loaded = true ∧
    (false = false ∨ twi_c6_wit.state = STARTED) ∧ twi_c6_wit.index < twi_c6_wit.count ∧
    (twi_isr 5 twi_c6_wit (TwiEvent.addr false)).crc = twi_c6_wit.crc ∧
    (twi_isr 5 twi_c6_wit (TwiEvent.recvByte 9)).crc = twi_c6_wit.crc ∧
    (twi_isr 5 twi_c6_wit (TwiEvent.addr true)).crc = 0 ∧
    (twi_isr 5 twi_c6_wit (TwiEvent.sendByte false)).crc
      = twi_update_crc twi_c6_wit.crc (twi_c6_wit.buf twi_c6_wit.index) := by
  have h := twi_c6_amended 5 9 twi_c6_wit false
  exact ⟨rfl, Or.inl rfl, by decide, h.1, h.2.1, h.2.2.1 rfl,
    h.2.2.2 (Or.inl rfl) (by decide)⟩

/-- **C7**: address phase (write direction, accepted because not
blocked) followed by the CLOSE_VALVE command byte (payload length 0 by
lookup) puts the machine straight back into IDLE with
`task = TWI_CMD_CLOSE_VALVE` and `blocked = true`; `twi_read` then
returns that task exactly once (a second call returns the
`TWI_CMD_NONE` sentinel) and clears `blocked`. -/
theorem twi_c7_close_valve (tms : Nat) (t0 : Twi) (hb : t0.blocked = false) :
    (twi_run tms t0 [TwiEvent.addr false, TwiEvent.recvByte TWI_CMD_CLOSE_VALVE]).state = IDLE ∧
    (twi_run tms t0 [TwiEvent.addr false, TwiEvent.recvByte TWI_CMD_CLOSE_VALVE]).task
      = TWI_CMD_CLOSE_VALVE ∧
    (twi_run tms t0 [TwiEvent.addr false, TwiEvent.recvByte TWI_CMD_CLOSE_VALVE]).blocked = true ∧
    (twi_read (twi_run tms t0 [TwiEvent.addr false,
        TwiEvent.recvByte TWI_CMD_CLOSE_VALVE])).1.task = TWI_CMD_CLOSE_VALVE ∧
    (twi_read (twi_run tms t0 [TwiEvent.addr false,
        TwiEvent.recvByte TWI_CMD_CLOSE_VALVE])).2.task = TWI_CMD_NONE ∧
    (twi_read (twi_run tms t0 [TwiEvent.addr false,
        TwiEvent.recvByte TWI_CMD_CLOSE_VALVE])).2.blocked = false ∧
    (twi_read (twi_read (twi_run tms t0 [TwiEvent.addr false,
        TwiEvent.recvByte TWI_CMD_CLOSE_VALVE])).2).1.task = TWI_CMD_NONE := by
  simp [twi_run, twi_isr, twi_read, prepare_recv, finish_recv, twi_blocking_cmds, hb,
    TWI_CMD_CLOSE_VALVE, TWI_CMD_SET_CALIB, TWI_CMD_CALIB_WRITE, TWI_CMD_SET_ADDR,
    TWI_CMD_ADDR_WRITE, TWI_CMD_DISABLE_WD, TWI_CMD_GET_VERSION, TWI_CMD_OPEN_VALVE,
    TWI_CMD_ENABLE_WD, TWI_CMD_NONE, STARTED, IDLE, IN_PROGRESS]

/-- **C7 witness**: the scenario run from the reset state. -/
theorem twi_c7_close_valve_witness :
    twi_init_state.blocked = false ∧
    (twi_run 0 twi_init_state
      [TwiEvent.addr false, TwiEvent.recvByte TWI_CMD_CLOSE_VALVE]).task
      = TWI_CMD_CLOSE_VALVE := by
  exact ⟨rfl, (twi_c7_close_valve 0 twi_init_state rfl).2.1⟩

/-- **C8**: for the framed write `addr(write), SET_CALIB, 6 payload
bytes`: the expected count becomes 6 (sizeof of the packed calibration
record) exactly at the data-phase event delivering the command byte —
not at the address phase — and the transaction finalises
(`task = TWI_CMD_SET_CALIB`, back to IDLE) only after the 6th payload
byte; after bytes 1..5 the machine is still IN_PROGRESS with no pending
task. -/
theorem twi_c8_set_calib (tms : Nat) (t0 : Twi) (hb : t0.blocked = false)
    (d1 d2 d3 d4 d5 d6 : Nat) :
    (twi_run tms t0 [TwiEvent.addr false]).count = t0.count ∧
    (twi_run tms t0 [TwiEvent.addr false, TwiEvent.recvByte TWI_CMD_SET_CALIB]).count = 6 ∧
    (twi_run tms t0 [TwiEvent.addr false, TwiEvent.recvByte TWI_CMD_SET_CALIB]).task
      = TWI_CMD_NONE ∧
    (twi_run tms t0 [TwiEvent.addr false, TwiEvent.recvByte TWI_CMD_SET_CALIB]).state
      = IN_PROGRESS ∧
    (∀ k, k < 5 →
      (twi_run tms t0 ([TwiEvent.addr false, TwiEvent.recvByte TWI_CMD_SET_CALIB] ++
        (List.take (k + 1) [TwiEvent.recvByte d1, TwiEvent.recvByte d2, TwiEvent.recvByte d3,
          TwiEvent.recvByte d4, TwiEvent.recvByte d5]))).state = IN_PROGRESS ∧
      (twi_run tms t0 ([TwiEvent.addr false, TwiEvent.recvByte TWI_CMD_SET_CALIB] ++
        (List.take (k + 1) [TwiEvent.recvByte d1, TwiEvent.recvByte d2, TwiEvent.recvByte d3,
          TwiEvent.recvByte d4, TwiEvent.recvByte d5]))).task = TWI_CMD_NONE) ∧
    (twi_run tms t0 [TwiEvent.addr false, TwiEvent.recvByte TWI_CMD_SET_CALIB,
        TwiEvent.recvByte d1, TwiEvent.recvByte d2, TwiEvent.recvByte d3,
        TwiEvent.recvByte d4, TwiEvent.recvByte d5, TwiEvent.recvByte d6]).state = IDLE ∧
    (twi_run tms t0 [TwiEvent.addr false, TwiEvent.recvByte TWI_CMD_SET_CALIB,
        TwiEvent.recvByte d1, TwiEvent.recvByte d2, TwiEvent.recvByte d3,
        TwiEvent.recvByte d4, TwiEvent.recvByte d5, TwiEvent.recvByte d6]).task
      = TWI_CMD_SET_CALIB ∧
    (twi_run tms t0 [TwiEvent.addr false, TwiEvent.recvByte TWI_CMD_SET_CALIB,
        TwiEvent.recvByte d1, TwiEvent.recvByte d2, TwiEvent.recvByte d3,
        TwiEvent.recvByte d4, TwiEvent.recvByte d5, TwiEvent.recvByte d6]).blocked = true ∧
    (twi_run tms t0 [TwiEvent.addr false, TwiEvent.recvByte TWI_CMD_SET_CALIB,
        TwiEvent.recvByte d1, TwiEvent.recvByte d2, TwiEvent.recvByte d3,
        TwiEvent.recvByte d4, TwiEvent.recvByte d5, TwiEvent.recvByte d6]).buf 0
      = d1 % 256 ∧
    (twi_run tms t0 [TwiEvent.addr false, TwiEvent.recvByte TWI_CMD_SET_CALIB,
        TwiEvent.recvByte d1, TwiEvent.recvByte d2, TwiEvent.recvByte d3,
        TwiEvent.recvByte d4, TwiEvent.recvByte d5, TwiEvent.recvByte d6]).buf 5
      = d6 % 256 := by
  refine ⟨?_, ?_, ?_, ?_, ?_, ?_, ?_, ?_, ?_, ?_⟩
  · simp [twi_run, twi_isr, hb]
  · simp [twi_run, twi_isr, prepare_recv, finish_recv, hb, TWI_CMD_SET_CALIB, STARTED]
  · simp [twi_run, twi_isr, prepare_recv, finish_recv, hb, TWI_CMD_SET_CALIB, STARTED]
  · simp [twi_run, twi_isr, prepare_recv, finish_recv, hb, TWI_CMD_SET_CALIB, STARTED]
  · intro k hk
    interval_cases k <;>
      constructor <;>
        simp [twi_run, twi_isr, prepare_recv, finish_recv, fset, hb,
          TWI_CMD_SET_CALIB, STARTED, IN_PROGRESS, TWI_CMD_NONE, IDLE]
  · simp [twi_run, twi_isr, prepare_recv, finish_recv, twi_blocking_cmds, fset, hb,
      TWI_CMD_SET_CALIB, STARTED, IN_PROGRESS, TWI_CMD_NONE, IDLE, TWI_CMD_GET_VERSION]
  · simp [twi_run, twi_isr, prepare_recv, finish_recv, twi_blocking_cmds, fset, hb,
      TWI_CMD_SET_CALIB, STARTED, IN_PROGRESS, TWI_CMD_NONE, IDLE, TWI_CMD_GET_VERSION]
  · simp [twi_run, twi_isr, prepare_recv, finish_recv, twi_blocking_cmds, fset, hb,
      TWI_CMD_SET_CALIB, STARTED, IN_PROGRESS, TWI_CMD_NONE, IDLE, TWI_CMD_GET_VERSION]
  · simp [twi_run, twi_isr, prepare_recv, finish_recv, twi_blocking_cmds, fset, hb,
      TWI_CMD_SET_CALIB, STARTED, IN_PROGRESS, TWI_CMD_NONE, IDLE, TWI_CMD_GET_VERSION]
  · simp [twi_run, twi_isr, prepare_recv, finish_recv, twi_blocking_cmds, fset, hb,
      TWI_CMD_SET_CALIB, STARTED, IN_PROGRESS, TWI_CMD_NONE, IDLE, TWI_CMD_GET_VERSION]

/-- **C8 witness**: the framed write run from the reset state with
payload bytes 1..6. -/
theorem twi_c8_set_calib_witness :
    twi_init_state.blocked = false ∧
    (twi_run 0 twi_init_state [TwiEvent.addr false, TwiEvent.recvByte TWI_CMD_SET_CALIB,
        TwiEvent.recvByte 1, TwiEvent.recvByte 2, TwiEvent.recvByte 3,
        TwiEvent.recvByte 4, TwiEvent.recvByte 5, TwiEvent.recvByte 6]).task
      = TWI_CMD_SET_CALIB ∧
    (twi_run 0 twi_init_state
      [TwiEvent.addr false, TwiEvent.recvByte TWI_CMD_SET_CALIB]).count = 6 := by
  have h := twi_c8_set_calib 0 twi_init_state rfl 1 2 3 4 5 6
  exact ⟨rfl, h.2.2.2.2.2.2.1, h.2.1⟩

theorem loadInv_init (s : LoadSys) (h : LoadInit s) : LoadInv s := by
  obtain ⟨hpc, _⟩ := h
  constructor
  · intro hc
    rw [hpc] at hc
    rcases hc with h | h | h | h <;> exact absurd h (by decide)
  · intro hc
    rw [hpc] at hc
    rcases hc with h | h <;> exact absurd h (by decide)

theorem loadInv_step (s s' : LoadSys) (l : StepLabel) (hinv : LoadInv s)
    (hstep : LoadStep s l s') : LoadInv s' := by
  obtain ⟨h1, h2⟩ := hinv
  cases hstep with
  | isr tms ev hie =>
      refine ⟨fun hc => ?_, fun hc => ?_⟩
      · dsimp at hc ⊢
        exact h1 hc
      · dsimp at hc ⊢
        have hie' : s.ie = false := h1 (by tauto)
        rw [hie] at hie'
        exact absurd hie' (by decide)
  | entry hpc =>
      refine ⟨fun _ => rfl, fun hc => ?_⟩
      dsimp at hc
      rcases hc with h | h <;> exact absurd h (by decide)
  | check_busy hpc hst =>
      refine ⟨fun hc => ?_, fun hc => ?_⟩
      · dsimp at hc
        rcases hc with h | h | h | h <;> exact absurd h (by decide)
      · dsimp at hc
        rcases hc with h | h <;> exact absurd h (by decide)
  | wake hpc =>
      refine ⟨fun _ => rfl, fun hc => ?_⟩
      dsimp at hc
      rcases hc with h | h <;> exact absurd h (by decide)
  | check_idle hpc hst =>
      exact ⟨fun _ => h1 (Or.inl hpc), fun _ => hst⟩
  | ready_pending hpc htask =>
      refine ⟨fun _ => h1 (by tauto), fun hc => ?_⟩
      dsimp at hc
      rcases hc with h | h <;> exact absurd h (by decide)
  | ready_stage hpc htask =>
      exact ⟨fun _ => h1 (by tauto), fun _ => h2 (Or.inl hpc)⟩
  | copy_step hpc =>
      refine ⟨fun _ => h1 (by tauto), fun hc => ?_⟩
      dsimp at hc
      rcases hc with h | h <;> exact absurd h (by decide)
  | fin_step hpc =>
      refine ⟨fun hc => ?_, fun hc => ?_⟩
      · dsimp at hc
        rcases hc with h | h | h | h <;> exact absurd h (by decide)
      · dsimp at hc
        rcases hc with h | h <;> exact absurd h (by decide)

theorem loadInv_reach (s s' : LoadSys) (h0 : LoadInit s) (hr : LoadReach s s') :
    LoadInv s' := by
  induction hr with
  | refl => exact loadInv_init s h0
  | tail _ hstep ih =>
      obtain ⟨l, hstep⟩ := hstep
      exact loadInv_step _ _ l ih hstep

/-- **C9**: in every interleaving of accessor steps and ISR steps, an
accessor step that changes `buf`, `count` or `loaded` can only happen
in a state the wait loop has already observed as IDLE — in particular
never while the bus state is IN_PROGRESS — so a receive in progress is
never corrupted by a concurrent response load. -/
theorem twi_c9_no_staging_in_progress (s0 s s' : LoadSys)
    (hinit : LoadInit s0) (hreach : LoadReach s0 s)
    (hstep : LoadStep s StepLabel.acc s')
    (hmod : s'.twi.buf ≠ s.twi.buf ∨ s'.twi.count ≠ s.twi.count ∨
      s'.twi.loaded ≠ s.twi.loaded) :
    s.twi.state = IDLE ∧ s.twi.state ≠ IN_PROGRESS := by
  have hinv := loadInv_reach s0 s hinit hreach
  have hidle : s.twi.state = IDLE := by
    cases hstep with
    | entry hpc => dsimp at hmod; tauto
    | check_busy hpc hst => dsimp at hmod; tauto
    | wake hpc => dsimp at hmod; tauto
    | check_idle hpc hst => exact hst
    | ready_pending hpc htask => dsimp at hmod; tauto
    | ready_stage hpc htask => exact hinv.2 (Or.inl hpc)
    | copy_step hpc => exact hinv.2 (Or.inr hpc)
    | fin_step hpc => dsimp at hmod; tauto
  refine ⟨hidle, ?_⟩
  rw [hidle]
  decide

/-- **C9 witness**: a concrete three-step interleaving (enter, observe
idle, stage) whose staging step changes `loaded`. -/
theorem twi_c9_witness : c9w2.twi.state = IDLE ∧ c9w2.twi.state ≠ IN_PROGRESS := by
  have hreach : LoadReach c9w0 c9w2 :=
    Relation.ReflTransGen.tail
      (Relation.ReflTransGen.tail Relation.ReflTransGen.refl
        ⟨StepLabel.acc, LoadStep.entry c9w0 rfl⟩)
      ⟨StepLabel.acc, LoadStep.check_idle _ rfl rfl⟩
  have hstep : LoadStep c9w2 StepLabel.acc c9w3 := LoadStep.ready_stage c9w2 rfl rfl
  exact twi_c9_no_staging_in_progress c9w0 c9w2 c9w3 ⟨rfl, rfl⟩ hreach hstep
    (Or.inr (Or.inr (by decide)))

/-- **C10**: if the wait loop has finished (program point `ready`) and
an unconsumed `task` is pending, the rest of `twi_write`/`twi_write_P`
changes none of `buf`, `count`, `loaded`: the response is silently
discarded (the functions return `void`, so no error can be reported). -/
theorem twi_c10_discard (s s' : LoadSys) (hpc : s.pc = LoadPC.ready)
    (htask : s.twi.task ≠ TWI_CMD_NONE) (hr : LoadReachAcc s s') :
    s'.twi.buf = s.twi.buf ∧ s'.twi.count = s.twi.count ∧
      s'.twi.loaded = s.twi.loaded := by
  have key : s'.twi = s.twi ∧
      (s'.pc = LoadPC.ready ∨ s'.pc = LoadPC.fin ∨ s'.pc = LoadPC.done) := by
    induction hr with
    | refl => exact ⟨rfl, Or.inl hpc⟩
    | tail hr2 hstep ih =>
        obtain ⟨heq, hpcs⟩ := ih
        cases hstep with
        | entry hp =>
            rcases hpcs with h | h | h <;> (rw [hp] at h; exact absurd h (by decide))
        | check_busy hp hst =>
            rcases hpcs with h | h | h <;> (rw [hp] at h; exact absurd h (by decide))
        | wake hp =>
            rcases hpcs with h | h | h <;> (rw [hp] at h; exact absurd h (by decide))
        | check_idle hp hst =>
            rcases hpcs with h | h | h <;> (rw [hp] at h; exact absurd h (by decide))
        | ready_pending hp ht =>
            exact ⟨heq, Or.inr (Or.inl rfl)⟩
        | ready_stage hp ht =>
            rw [heq] at ht
            exact absurd ht htask
        | copy_step hp =>
            rcases hpcs with h | h | h <;> (rw [hp] at h; exact absurd h (by decide))
        | fin_step hp =>
            exact ⟨heq, Or.inr (Or.inr rfl)⟩
  exact ⟨congrArg Twi.buf key.1, congrArg Twi.count key.1, congrArg Twi.loaded key.1⟩

/-- **C10 witness**: with a pending CLOSE_VALVE task, running the
accessor tail to completion leaves `buf`, `count` and `loaded`
untouched. -/
theorem twi_c10_witness :
    c10w2.twi.buf = c10w0.twi.buf ∧ c10w2.twi.count = c10w0.twi.count ∧
      c10w2.twi.loaded = c10w0.twi.loaded := by
  have hr : LoadReachAcc c10w0 c10w2 :=
    Relation.ReflTransGen.tail
      (Relation.ReflTransGen.tail Relation.ReflTransGen.refl
        (LoadStep.ready_pending c10w0 rfl (by decide)))
      (LoadStep.fin_step _ rfl)
  exact twi_c10_discard c10w0 c10w2 rfl (by decide) hr

/-- **C5**: on bin counts `[1,5,5,5,5,5,5,1]` (total 32) the threshold
is `32 / 8 = 4`; the scan excludes exactly the two edge bins with
count 1 (`start = 1`, `end = 7`), includes the six bins with count 5,
and the filter returns `count = 30` (and the matching trimmed sum,
total and span). -/
theorem buckets_filter_c5 :
    buckets_total c5_state = 32 ∧
    buckets_thresh c5_state = 4 ∧
    buckets_start c5_state 4 = some 1 ∧
    buckets_end c5_state 4 = some 7 ∧
    buckets_filter c5_state
      = some { sum := 2100, count := 30, total := 32, span := 5 } := by
  refine ⟨rfl, rfl, rfl, rfl, rfl⟩

/-! ### Deflate characterisation -/

theorem merge_upper (d s : Nat) (b : Buckets) : (buckets_merge d s b).upper = b.upper := rfl
theorem merge_lower (d s : Nat) (b : Buckets) : (buckets_merge d s b).lower = b.lower := rfl
theorem merge_shift (d s : Nat) (b : Buckets) : (buckets_merge d s b).shift = b.shift := rfl
theorem merge_base (d s : Nat) (b : Buckets) : (buckets_merge d s b).base = b.base := rfl
theorem merge_min_shift (d s : Nat) (b : Buckets) :
    (buckets_merge d s b).min_shift = b.min_shift := rfl

theorem lo_step_upper (b : Buckets) (j i : Nat) : (deflate_lo_step b j i).upper = b.upper := by
  unfold deflate_lo_step
  split <;> rfl

theorem lo_step_lower (b : Buckets) (j i : Nat) : (deflate_lo_step b j i).lower = b.lower := by
  unfold deflate_lo_step
  split <;> rfl

theorem hi_step_upper (b : Buckets) (j i : Nat) : (deflate_hi_step b j i).upper = b.upper := by
  unfold deflate_hi_step
  split <;> rfl

theorem hi_step_lower (b : Buckets) (j i : Nat) : (deflate_hi_step b j i).lower = b.lower := by
  unfold deflate_hi_step
  split <;> rfl

theorem lo_upper (b : Buckets) : (deflate_lo b).upper = b.upper := by
  unfold deflate_lo
  simp only [lo_step_upper]

theorem lo_lower (b : Buckets) : (deflate_lo b).lower = b.lower := by
  unfold deflate_lo
  simp only [lo_step_lower]

theorem hi_upper (b : Buckets) : (deflate_hi b).upper = b.upper := by
  unfold deflate_hi
  simp only [hi_step_upper]

theorem hi_lower (b : Buckets) : (deflate_hi b).lower = b.lower := by
  unfold deflate_hi
  simp only [hi_step_lower]

theorem copy_slot_upper (b : Buckets) (d s : Nat) : (copy_slot b d s).upper = b.upper := rfl
theorem copy_slot_lower (b : Buckets) (d s : Nat) : (copy_slot b d s).lower = b.lower := rfl

theorem odd_upper_upper (b : Buckets) : (deflate_odd_upper b).upper = b.upper := by
  unfold deflate_odd_upper
  split <;> rfl

theorem odd_upper_lower (b : Buckets) : (deflate_odd_upper b).lower = b.lower := by
  unfold deflate_odd_upper
  split <;> rfl

theorem odd_lower_upper (b : Buckets) : (deflate_odd_lower b).upper = b.upper := by
  unfold deflate_odd_lower
  split <;> rfl

theorem odd_lower_lower (b : Buckets) : (deflate_odd_lower b).lower = b.lower := by
  unfold deflate_odd_lower
  split <;> rfl

theorem lo_step_accu (b : Buckets) (j i k : Nat) :
    (deflate_lo_step b j i).accu k =
      if i + 1 < b.upper ∧ k = j then (b.accu i + b.accu (i + 1)) % U32
      else b.accu k := by
  unfold deflate_lo_step buckets_merge fset
  split_ifs <;> simp_all

theorem lo_step_count (b : Buckets) (j i k : Nat) :
    (deflate_lo_step b j i).count k =
      if i + 1 < b.upper ∧ k = j then (b.count i + b.count (i + 1)) % 256
      else b.count k := by
  unfold deflate_lo_step buckets_merge fset
  split_ifs <;> simp_all

theorem hi_step_accu (b : Buckets) (j i k : Nat) :
    (deflate_hi_step b j i).accu k =
      if b.lower + 1 ≤ i ∧ k = j then (b.accu (i - 1) + b.accu (i - 1 + 1)) % U32
      else b.accu k := by
  unfold deflate_hi_step buckets_merge fset
  split_ifs <;> simp_all

theorem hi_step_count (b : Buckets) (j i k : Nat) :
    (deflate_hi_step b j i).count k =
      if b.lower + 1 ≤ i ∧ k = j then (b.count (i - 1) + b.count (i - 1 + 1)) % 256
      else b.count k := by
  unfold deflate_hi_step buckets_merge fset
  split_ifs <;> simp_all

theorem copy_slot_accu (b : Buckets) (d s k : Nat) :
    (copy_slot b d s).accu k = if k = d then b.accu s else b.accu k := by
  unfold copy_slot fset
  split_ifs <;> simp_all

theorem copy_slot_count (b : Buckets) (d s k : Nat) :
    (copy_slot b d s).count k = if k = d then b.count s else b.count k := by
  unfold copy_slot fset
  split_ifs <;> simp_all

theorem clear_slot_accu (b : Buckets) (lo hi m k : Nat) :
    (clear_slot b lo hi m).accu k =
      if lo ≤ m ∧ m < hi ∧ k = m then 0 else b.accu k := by
  unfold clear_slot fset
  split_ifs <;> simp_all

theorem clear_slot_count (b : Buckets) (lo hi m k : Nat) :
    (clear_slot b lo hi m).count k =
      if lo ≤ m ∧ m < hi ∧ k = m then 0 else b.count k := by
  unfold clear_slot fset
  split_ifs <;> simp_all

theorem odd_upper_accu (b : Buckets) (k : Nat) :
    (deflate_odd_upper b).accu k =
      if b.upper % 2 = 1 ∧ k = (b.upper - 1) / 2 then b.accu (b.upper - 1)
      else b.accu k := by
  unfold deflate_odd_upper
  by_cases h : b.upper % 2 = 1 <;> simp [h, copy_slot_accu]

theorem odd_upper_count (b : Buckets) (k : Nat) :
    (deflate_odd_upper b).count k =
      if b.upper % 2 = 1 ∧ k = (b.upper - 1) / 2 then b.count (b.upper - 1)
      else b.count k := by
  unfold deflate_odd_upper
  by_cases h : b.upper % 2 = 1 <;> simp [h, copy_slot_count]

theorem odd_lower_accu (b : Buckets) (k : Nat) :
    (deflate_odd_lower b).accu k =
      if b.lower % 2 = 1 ∧ k = (8 + b.lower) / 2 then b.accu b.lower
      else b.accu k := by
  unfold deflate_odd_lower
  by_cases h : b.lower % 2 = 1 <;> simp [h, copy_slot_accu]

theorem odd_lower_count (b : Buckets) (k : Nat) :
    (deflate_odd_lower b).count k =
      if b.lower % 2 = 1 ∧ k = (8 + b.lower) / 2 then b.count b.lower
      else b.count k := by
  unfold deflate_odd_lower
  by_cases h : b.lower % 2 = 1 <;> simp [h, copy_slot_count]

theorem clear_range_accu (b : Buckets) (lo hi k : Nat) :
    (clear_range b lo hi).accu k =
      if lo ≤ k ∧ k < hi ∧ k ≤ 7 then 0 else b.accu k := by
  unfold clear_range
  simp only [clear_slot_accu]
  split_ifs <;> first | rfl | omega

theorem clear_range_count (b : Buckets) (lo hi k : Nat) :
    (clear_range b lo hi).count k =
      if lo ≤ k ∧ k < hi ∧ k ≤ 7 then 0 else b.count k := by
  unfold clear_range
  simp only [clear_slot_count]
  split_ifs <;> first | rfl | omega

theorem finish_accu (b : Buckets) (k : Nat) :
    (deflate_finish b).accu k =
      if (b.upper + 1) / 2 ≤ k ∧ k < (8 + b.lower) / 2 ∧ k ≤ 7 then 0
      else b.accu k := by
  unfold deflate_finish
  simp [clear_range_accu]

theorem finish_count (b : Buckets) (k : Nat) :
    (deflate_finish b).count k =
      if (b.upper + 1) / 2 ≤ k ∧ k < (8 + b.lower) / 2 ∧ k ≤ 7 then 0
      else b.count k := by
  unfold deflate_finish
  simp [clear_range_count]

theorem lo_step_shift (b : Buckets) (j i : Nat) : (deflate_lo_step b j i).shift = b.shift := by
  unfold deflate_lo_step
  split <;> rfl

theorem hi_step_shift (b : Buckets) (j i : Nat) : (deflate_hi_step b j i).shift = b.shift := by
  unfold deflate_hi_step
  split <;> rfl

theorem copy_slot_shift (b : Buckets) (d s : Nat) : (copy_slot b d s).shift = b.shift := rfl

theorem clear_slot_shift (b : Buckets) (lo hi k : Nat) : (clear_slot b lo hi k).shift = b.shift := by
  unfold clear_slot
  split <;> rfl

theorem clear_range_shift (b : Buckets) (lo hi : Nat) : (clear_range b lo hi).shift = b.shift := by
  unfold clear_range
  simp only [clear_slot_shift]

theorem lo_shift (b : Buckets) : (deflate_lo b).shift = b.shift := by
  unfold deflate_lo
  simp only [lo_step_shift]

theorem hi_shift (b : Buckets) : (deflate_hi b).shift = b.shift := by
  unfold deflate_hi
  simp only [hi_step_shift]

theorem odd_upper_shift (b : Buckets) : (deflate_odd_upper b).shift = b.shift := by
  unfold deflate_odd_upper
  split <;> rfl

theorem odd_lower_shift (b : Buckets) : (deflate_odd_lower b).shift = b.shift := by
  unfold deflate_odd_lower
  split <;> rfl

theorem lo_step_base (b : Buckets) (j i : Nat) : (deflate_lo_step b j i).base = b.base := by
  unfold deflate_lo_step
  split <;> rfl

theorem hi_step_base (b : Buckets) (j i : Nat) : (deflate_hi_step b j i).base = b.base := by
  unfold deflate_hi_step
  split <;> rfl

theorem copy_slot_base (b : Buckets) (d s : Nat) : (copy_slot b d s).base = b.base := rfl

theorem clear_slot_base (b : Buckets) (lo hi k : Nat) : (clear_slot b lo hi k).base = b.base := by
  unfold clear_slot
  split <;> rfl

theorem clear_range_base (b : Buckets) (lo hi : Nat) : (clear_range b lo hi).base = b.base := by
  unfold clear_range
  simp only [clear_slot_base]

theorem lo_base (b : Buckets) : (deflate_lo b).base = b.base := by
  unfold deflate_lo
  simp only [lo_step_base]

theorem hi_base (b : Buckets) : (deflate_hi b).base = b.base := by
  unfold deflate_hi
  simp only [hi_step_base]

theorem odd_upper_base (b : Buckets) : (deflate_odd_upper b).base = b.base := by
  unfold deflate_odd_upper
  split <;> rfl

theorem odd_lower_base (b : Buckets) : (deflate_odd_lower b).base = b.base := by
  unfold deflate_odd_lower
  split <;> rfl

theorem lo_step_min_shift (b : Buckets) (j i : Nat) : (deflate_lo_step b j i).min_shift = b.min_shift := by
  unfold deflate_lo_step
  split <;> rfl

theorem hi_step_min_shift (b : Buckets) (j i : Nat) : (deflate_hi_step b j i).min_shift = b.min_shift := by
  unfold deflate_hi_step
  split <;> rfl

theorem copy_slot_min_shift (b : Buckets) (d s : Nat) : (copy_slot b d s).min_shift = b.min_shift := rfl

theorem clear_slot_min_shift (b : Buckets) (lo hi k : Nat) : (clear_slot b lo hi k).min_shift = b.min_shift := by
  unfold clear_slot
  split <;> rfl

theorem clear_range_min_shift (b : Buckets) (lo hi : Nat) : (clear_range b lo hi).min_shift = b.min_shift := by
  unfold clear_range
  simp only [clear_slot_min_shift]

theorem lo_min_shift (b : Buckets) : (deflate_lo b).min_shift = b.min_shift := by
  unfold deflate_lo
  simp only [lo_step_min_shift]

theorem hi_min_shift (b : Buckets) : (deflate_hi b).min_shift = b.min_shift := by
  unfold deflate_hi
  simp only [hi_step_min_shift]

theorem odd_upper_min_shift (b : Buckets) : (deflate_odd_upper b).min_shift = b.min_shift := by
  unfold deflate_odd_upper
  split <;> rfl

theorem odd_lower_min_shift (b : Buckets) : (deflate_odd_lower b).min_shift = b.min_shift := by
  unfold deflate_odd_lower
  split <;> rfl

theorem deflate_finish_upper (b : Buckets) :
    (deflate_finish b).upper = (b.upper + 1) / 2 := rfl

theorem deflate_finish_lower (b : Buckets) :
    (deflate_finish b).lower = (8 + b.lower) / 2 := rfl

theorem deflate_finish_shift (b : Buckets) :
    (deflate_finish b).shift = b.shift + 1 := by
  show (clear_range { b with shift := b.shift + 1 }
    ((b.upper + 1) / 2) ((8 + b.lower) / 2)).shift = b.shift + 1
  rw [clear_range_shift]

theorem deflate_finish_base (b : Buckets) :
    (deflate_finish b).base = b.base := by
  show (clear_range { b with shift := b.shift + 1 }
    ((b.upper + 1) / 2) ((8 + b.lower) / 2)).base = b.base
  rw [clear_range_base]

theorem deflate_finish_min_shift (b : Buckets) :
    (deflate_finish b).min_shift = b.min_shift := by
  show (clear_range { b with shift := b.shift + 1 }
    ((b.upper + 1) / 2) ((8 + b.lower) / 2)).min_shift = b.min_shift
  rw [clear_range_min_shift]

theorem buckets_deflate_fields (b : Buckets) :
    (buckets_deflate b).upper = (b.upper + 1) / 2 ∧
    (buckets_deflate b).lower = (8 + b.lower) / 2 ∧
    (buckets_deflate b).shift = b.shift + 1 ∧
    (buckets_deflate b).base = b.base ∧
    (buckets_deflate b).min_shift = b.min_shift := by
  unfold buckets_deflate
  refine ⟨?_, ?_, ?_, ?_, ?_⟩
  · rw [deflate_finish_upper, odd_lower_upper, hi_upper, odd_upper_upper, lo_upper]
  · rw [deflate_finish_lower, odd_lower_lower, hi_lower, odd_upper_lower, lo_lower]
  · rw [deflate_finish_shift, odd_lower_shift, hi_shift, odd_upper_shift, lo_shift]
  · rw [deflate_finish_base, odd_lower_base, hi_base, odd_upper_base, lo_base]
  · rw [deflate_finish_min_shift, odd_lower_min_shift, hi_min_shift, odd_upper_min_shift,
      lo_min_shift]

theorem lo_accu_char (b : Buckets) (k : Nat) (hk : k ≤ 7) :
    (deflate_lo b).accu k =
      if 2 * k + 1 < b.upper ∧ k ≤ 3 then (b.accu (2 * k) + b.accu (2 * k + 1)) % U32
      else b.accu k := by
  unfold deflate_lo
  interval_cases k <;> simp [lo_step_accu, lo_step_upper] <;>
    split_ifs <;> first | rfl | omega

theorem lo_count_char (b : Buckets) (k : Nat) (hk : k ≤ 7) :
    (deflate_lo b).count k =
      if 2 * k + 1 < b.upper ∧ k ≤ 3 then (b.count (2 * k) + b.count (2 * k + 1)) % 256
      else b.count k := by
  unfold deflate_lo
  interval_cases k <;> simp [lo_step_count, lo_step_upper] <;>
    split_ifs <;> first | rfl | omega

theorem hi_accu_char (b : Buckets) (k : Nat) (hk : k ≤ 7) :
    (deflate_hi b).accu k =
      if b.lower + 8 ≤ 2 * k then (b.accu (2 * k - 8) + b.accu (2 * k - 8 + 1)) % U32
      else b.accu k := by
  unfold deflate_hi
  interval_cases k <;> simp [hi_step_accu, hi_step_lower] <;>
    split_ifs <;> first | rfl | omega

theorem hi_count_char (b : Buckets) (k : Nat) (hk : k ≤ 7) :
    (deflate_hi b).count k =
      if b.lower + 8 ≤ 2 * k then (b.count (2 * k - 8) + b.count (2 * k - 8 + 1)) % 256
      else b.count k := by
  unfold deflate_hi
  interval_cases k <;> simp [hi_step_count, hi_step_lower] <;>
    split_ifs <;> first | rfl | omega

theorem lo_ou_accu_char (b : Buckets) (k : Nat) (hk : k ≤ 7)
    (h1 : 1 ≤ b.upper) (h8 : b.upper ≤ 8) :
    (deflate_odd_upper (deflate_lo b)).accu k =
      if 2 * k + 1 = b.upper then b.accu (2 * k)
      else if 2 * k + 1 < b.upper ∧ k ≤ 3 then
        (b.accu (2 * k) + b.accu (2 * k + 1)) % U32
      else b.accu k := by
  rw [odd_upper_accu, lo_upper, lo_accu_char b (b.upper - 1) (by omega),
    lo_accu_char b k hk]
  split_ifs <;> first | rfl | omega | (congr 1 <;> omega)

theorem lo_ou_count_char (b : Buckets) (k : Nat) (hk : k ≤ 7)
    (h1 : 1 ≤ b.upper) (h8 : b.upper ≤ 8) :
    (deflate_odd_upper (deflate_lo b)).count k =
      if 2 * k + 1 = b.upper then b.count (2 * k)
      else if 2 * k + 1 < b.upper ∧ k ≤ 3 then
        (b.count (2 * k) + b.count (2 * k + 1)) % 256
      else b.count k := by
  rw [odd_upper_count, lo_upper, lo_count_char b (b.upper - 1) (by omega),
    lo_count_char b k hk]
  split_ifs <;> first | rfl | omega | (congr 1 <;> omega)

theorem lo_ou_hi_accu_char (b : Buckets) (k : Nat) (hk : k ≤ 7)
    (h1 : 1 ≤ b.upper) (hul : b.upper ≤ b.lower) (hl8 : b.lower ≤ 8) :
    (deflate_hi (deflate_odd_upper (deflate_lo b))).accu k =
      if b.lower + 8 ≤ 2 * k then (b.accu (2 * k - 8) + b.accu (2 * k - 8 + 1)) % U32
      else if 2 * k + 1 = b.upper then b.accu (2 * k)
      else if 2 * k + 1 < b.upper ∧ k ≤ 3 then
        (b.accu (2 * k) + b.accu (2 * k + 1)) % U32
      else b.accu k := by
  rw [hi_accu_char _ k hk, odd_upper_lower, lo_lower,
    lo_ou_accu_char b (2 * k - 8) (by omega) h1 (by omega),
    lo_ou_accu_char b (2 * k - 8 + 1) (by omega) h1 (by omega),
    lo_ou_accu_char b k hk h1 (by omega)]
  split_ifs <;> first | rfl | omega | (congr 1 <;> omega)

theorem lo_ou_hi_count_char (b : Buckets) (k : Nat) (hk : k ≤ 7)
    (h1 : 1 ≤ b.upper) (hul : b.upper ≤ b.lower) (hl8 : b.lower ≤ 8) :
    (deflate_hi (deflate_odd_upper (deflate_lo b))).count k =
      if b.lower + 8 ≤ 2 * k then (b.count (2 * k - 8) + b.count (2 * k - 8 + 1)) % 256
      else if 2 * k + 1 = b.upper then b.count (2 * k)
      else if 2 * k + 1 < b.upper ∧ k ≤ 3 then
        (b.count (2 * k) + b.count (2 * k + 1)) % 256
      else b.count k := by
  rw [hi_count_char _ k hk, odd_upper_lower, lo_lower,
    lo_ou_count_char b (2 * k - 8) (by omega) h1 (by omega),
    lo_ou_count_char b (2 * k - 8 + 1) (by omega) h1 (by omega),
    lo_ou_count_char b k hk h1 (by omega)]
  split_ifs <;> first | rfl | omega | (congr 1 <;> omega)

theorem deflate_pre_accu_char (b : Buckets) (k : Nat) (hk : k ≤ 7)
    (h1 : 1 ≤ b.upper) (hul : b.upper ≤ b.lower) (hl8 : b.lower ≤ 8) :
    (deflate_odd_lower (deflate_hi (deflate_odd_upper (deflate_lo b)))).accu k =
      if 2 * k + 1 = b.lower + 8 then b.accu b.lower
      else if b.lower + 8 ≤ 2 * k then
        (b.accu (2 * k - 8) + b.accu (2 * k - 8 + 1)) % U32
      else if 2 * k + 1 = b.upper then b.accu (2 * k)
      else if 2 * k + 1 < b.upper ∧ k ≤ 3 then
        (b.accu (2 * k) + b.accu (2 * k + 1)) % U32
      else b.accu k := by
  rw [odd_lower_accu, hi_lower, odd_upper_lower, lo_lower]
  by_cases hodd : b.lower % 2 = 1
  · rw [lo_ou_hi_accu_char b b.lower (by omega) h1 hul hl8,
      lo_ou_hi_accu_char b k hk h1 hul hl8]
    split_ifs <;> first | rfl | omega | (congr 1 <;> omega)
  · rw [lo_ou_hi_accu_char b k hk h1 hul hl8]
    split_ifs <;> first | omega | rfl | (congr 1 <;> omega)

theorem deflate_pre_count_char (b : Buckets) (k : Nat) (hk : k ≤ 7)
    (h1 : 1 ≤ b.upper) (hul : b.upper ≤ b.lower) (hl8 : b.lower ≤ 8) :
    (deflate_odd_lower (deflate_hi (deflate_odd_upper (deflate_lo b)))).count k =
      if 2 * k + 1 = b.lower + 8 then b.count b.lower
      else if b.lower + 8 ≤ 2 * k then
        (b.count (2 * k - 8) + b.count (2 * k - 8 + 1)) % 256
      else if 2 * k + 1 = b.upper then b.count (2 * k)
      else if 2 * k + 1 < b.upper ∧ k ≤ 3 then
        (b.count (2 * k) + b.count (2 * k + 1)) % 256
      else b.count k := by
  rw [odd_lower_count, hi_lower, odd_upper_lower, lo_lower]
  by_cases hodd : b.lower % 2 = 1
  · rw [lo_ou_hi_count_char b b.lower (by omega) h1 hul hl8,
      lo_ou_hi_count_char b k hk h1 hul hl8]
    split_ifs <;> first | rfl | omega | (congr 1 <;> omega)
  · rw [lo_ou_hi_count_char b k hk h1 hul hl8]
    split_ifs <;> first | omega | rfl | (congr 1 <;> omega)

/-- Full per-bin characterisation of `buckets_deflate` on a valid
nonempty window `1 ≤ upper ≤ lower ≤ 8`: interior slots cleared, the
odd leftover bins copied, adjacent pairs merged from both ends. -/
theorem buckets_deflate_accu_char (b : Buckets) (k : Nat) (hk : k ≤ 7)
    (h1 : 1 ≤ b.upper) (hul : b.upper ≤ b.lower) (hl8 : b.lower ≤ 8) :
    (buckets_deflate b).accu k =
      if (b.upper + 1) / 2 ≤ k ∧ k < (8 + b.lower) / 2 then 0
      else if 2 * k + 1 = b.lower + 8 then b.accu b.lower
      else if b.lower + 8 ≤ 2 * k then
        (b.accu (2 * k - 8) + b.accu (2 * k - 8 + 1)) % U32
      else if 2 * k + 1 = b.upper then b.accu (2 * k)
      else if 2 * k + 1 < b.upper ∧ k ≤ 3 then
        (b.accu (2 * k) + b.accu (2 * k + 1)) % U32
      else b.accu k := by
  unfold buckets_deflate
  rw [finish_accu, odd_lower_upper, hi_upper, odd_upper_upper, lo_upper,
    odd_lower_lower, hi_lower, odd_upper_lower, lo_lower,
    deflate_pre_accu_char b k hk h1 hul hl8]
  split_ifs <;> first | rfl | omega | (congr 1 <;> omega)

theorem buckets_deflate_count_char (b : Buckets) (k : Nat) (hk : k ≤ 7)
    (h1 : 1 ≤ b.upper) (hul : b.upper ≤ b.lower) (hl8 : b.lower ≤ 8) :
    (buckets_deflate b).count k =
      if (b.upper + 1) / 2 ≤ k ∧ k < (8 + b.lower) / 2 then 0
      else if 2 * k + 1 = b.lower + 8 then b.count b.lower
      else if b.lower + 8 ≤ 2 * k then
        (b.count (2 * k - 8) + b.count (2 * k - 8 + 1)) % 256
      else if 2 * k + 1 = b.upper then b.count (2 * k)
      else if 2 * k + 1 < b.upper ∧ k ≤ 3 then
        (b.count (2 * k) + b.count (2 * k + 1)) % 256
      else b.count k := by
  unfold buckets_deflate
  rw [finish_count, odd_lower_upper, hi_upper, odd_upper_upper, lo_upper,
    odd_lower_lower, hi_lower, odd_upper_lower, lo_lower,
    deflate_pre_count_char b k hk h1 hul hl8]
  split_ifs <;> first | rfl | omega | (congr 1 <;> omega)

theorem fdiv_small_nonneg (d e : Int) (h0 : 0 ≤ d) (hde : d < e) : Int.fdiv d e = 0 := by
  rw [Int.fdiv_eq_ediv d (by omega)]
  exact Int.ediv_eq_zero_of_lt h0 hde

theorem fdiv_small_neg (d e : Int) (h0 : -e ≤ d) (hd : d < 0) (he : 0 < e) :
    Int.fdiv d e = -1 := by
  rw [Int.fdiv_eq_ediv d (by omega)]
  have h1 : (d + 1 * e) / e = d / e + 1 := Int.add_mul_ediv_right d 1 (by omega)
  have h2 : (d + 1 * e) / e = 0 := Int.ediv_eq_zero_of_lt (by omega) (by omega)
  omega

theorem toI32_bounds (n : Nat) :
    -(2147483648 : Int) ≤ toI32 n ∧ toI32 n < 2147483648 := by
  unfold toI32 U32
  have h := Nat.mod_lt n (y := 4294967296) (by omega)
  split_ifs with hs <;> omega

theorem bucket_index_small (b : Buckets) (val : Nat) (hs : 31 ≤ b.shift) :
    bucket_index b val = 0 ∨ bucket_index b val = -1 := by
  unfold bucket_index
  obtain ⟨hlb, hub⟩ := toI32_bounds (val + U32 - b.base % U32)
  have hpow : (2147483648 : Int) ≤ 2 ^ b.shift := by
    calc (2147483648 : Int) = 2 ^ 31 := by norm_num
    _ ≤ 2 ^ b.shift := by
        apply pow_le_pow_right₀ (by omega)
        omega
  rcases le_or_lt 0 (toI32 (val + U32 - b.base % U32)) with h0 | h0
  · left
    rw [fdiv_small_nonneg _ _ h0 (by omega)]
    decide
  · right
    rw [fdiv_small_neg _ _ (by omega) h0 (by positivity)]
    decide

theorem buckets_deflate_bins_lt (b : Buckets)
    (h1 : 1 ≤ b.upper) (hul : b.upper ≤ b.lower) (hl8 : b.lower ≤ 8)
    (hb : ∀ i, i < 8 → b.accu i < U32 ∧ b.count i < 256) :
    ∀ i, i < 8 → (buckets_deflate b).accu i < U32 ∧ (buckets_deflate b).count i < 256 := by
  intro i hi
  rw [buckets_deflate_accu_char b i (by omega) h1 hul hl8,
    buckets_deflate_count_char b i (by omega) h1 hul hl8]
  have hU : 0 < U32 := by decide
  constructor
  · split_ifs
    · decide
    · exact (hb b.lower (by omega)).1
    · exact Nat.mod_lt _ hU
    · exact (hb (2 * i) (by omega)).1
    · exact Nat.mod_lt _ hU
    · exact (hb i hi).1
  · split_ifs
    · decide
    · exact (hb b.lower (by omega)).2
    · exact Nat.mod_lt _ (by decide)
    · exact (hb (2 * i) (by omega)).2
    · exact Nat.mod_lt _ (by decide)
    · exact (hb i hi).2

theorem buckets_deflate_zinv (b : Buckets)
    (h1 : 1 ≤ b.upper) (hul : b.upper ≤ b.lower) (hl8 : b.lower ≤ 8) :
    ∀ i, i < 8 → (buckets_deflate b).upper ≤ i → i < (buckets_deflate b).lower →
      (buckets_deflate b).accu i = 0 ∧ (buckets_deflate b).count i = 0 := by
  intro i hi hgu hll
  obtain ⟨hup, hlow, -, -, -⟩ := buckets_deflate_fields b
  rw [hup] at hgu
  rw [hlow] at hll
  rw [buckets_deflate_accu_char b i (by omega) h1 hul hl8,
    buckets_deflate_count_char b i (by omega) h1 hul hl8]
  rw [if_pos (by omega), if_pos (by omega)]
  exact ⟨rfl, rfl⟩

theorem buckets_deflate_conserve (b : Buckets)
    (h1 : 1 ≤ b.upper) (hul : b.upper ≤ b.lower) (hl8 : b.lower ≤ 8)
    (hz : ∀ i, i < 8 → b.upper ≤ i → i < b.lower → b.accu i = 0 ∧ b.count i = 0) :
    sum8 (buckets_deflate b).accu % U32 = sum8 b.accu % U32 ∧
    sum8 (buckets_deflate b).count % 256 = sum8 b.count % 256 := by
  have e0 := buckets_deflate_accu_char b 0 (by omega) h1 hul hl8
  have e1 := buckets_deflate_accu_char b 1 (by omega) h1 hul hl8
  have e2 := buckets_deflate_accu_char b 2 (by omega) h1 hul hl8
  have e3 := buckets_deflate_accu_char b 3 (by omega) h1 hul hl8
  have e4 := buckets_deflate_accu_char b 4 (by omega) h1 hul hl8
  have e5 := buckets_deflate_accu_char b 5 (by omega) h1 hul hl8
  have e6 := buckets_deflate_accu_char b 6 (by omega) h1 hul hl8
  have e7 := buckets_deflate_accu_char b 7 (by omega) h1 hul hl8
  have f0 := buckets_deflate_count_char b 0 (by omega) h1 hul hl8
  have f1 := buckets_deflate_count_char b 1 (by omega) h1 hul hl8
  have f2 := buckets_deflate_count_char b 2 (by omega) h1 hul hl8
  have f3 := buckets_deflate_count_char b 3 (by omega) h1 hul hl8
  have f4 := buckets_deflate_count_char b 4 (by omega) h1 hul hl8
  have f5 := buckets_deflate_count_char b 5 (by omega) h1 hul hl8
  have f6 := buckets_deflate_count_char b 6 (by omega) h1 hul hl8
  have f7 := buckets_deflate_count_char b 7 (by omega) h1 hul hl8
  have z0 := hz 0 (by omega)
  have z1 := hz 1 (by omega)
  have z2 := hz 2 (by omega)
  have z3 := hz 3 (by omega)
  have z4 := hz 4 (by omega)
  have z5 := hz 5 (by omega)
  have z6 := hz 6 (by omega)
  have z7 := hz 7 (by omega)
  clear hz
  unfold sum8
  obtain ⟨acc, cnt, base, shift, low, up, ms⟩ := b
  have h1a : 1 ≤ up := h1
  have hula : up ≤ low := hul
  have hl8a : low ≤ 8 := hl8
  have hu8a : up ≤ 8 := le_trans hula hl8a
  clear h1 hul hl8
  interval_cases up <;> interval_cases low <;>
    ((norm_num [U32] at *) <;> omega)

theorem add_loop_unfold (val : Nat) (b : Buckets) (fuel : Nat) :
    add_loop val b (fuel + 1) =
      if bucket_fits b (bucket_index b val) then some (b, bucket_index b val)
      else add_loop val (buckets_deflate b) fuel := rfl

theorem bucket_index_deflate (b : Buckets) (val : Nat) :
    bucket_index (buckets_deflate b) val
      = toI8 (Int.fdiv (toI32 (val + U32 - b.base % U32)) ((2 : Int) ^ (b.shift + 1))) := by
  unfold bucket_index
  obtain ⟨-, -, hs, hb, -⟩ := buckets_deflate_fields b
  rw [hs, hb]

/-- The deflation loop of `buckets_add` terminates (fuel `fuel + 2`
suffices once `31 ≤ shift + fuel`) and returns a state reachable by
deflations: window still valid, base and min_shift untouched, shift
non-decreasing, bins bounded, exterior zero, bin totals conserved, and
an index that fits the final window. -/
theorem add_loop_spec : ∀ (fuel : Nat) (b : Buckets) (val : Nat),
    1 ≤ b.upper → b.upper ≤ b.lower → b.lower ≤ 8 →
    (∀ i, i < 8 → b.accu i < U32 ∧ b.count i < 256) →
    (∀ i, i < 8 → b.upper ≤ i → i < b.lower → b.accu i = 0 ∧ b.count i = 0) →
    31 ≤ b.shift + fuel →
    ∃ b2 i, add_loop val b (fuel + 2) = some (b2, i) ∧
      1 ≤ b2.upper ∧ b2.upper ≤ b2.lower ∧ b2.lower ≤ 8 ∧
      b2.base = b.base ∧ b2.min_shift = b.min_shift ∧ b.shift ≤ b2.shift ∧
      (∀ k, k < 8 → b2.accu k < U32 ∧ b2.count k < 256) ∧
      (∀ k, k < 8 → b2.upper ≤ k → k < b2.lower → b2.accu k = 0 ∧ b2.count k = 0) ∧
      sum8 b2.accu % U32 = sum8 b.accu % U32 ∧
      sum8 b2.count % 256 = sum8 b.count % 256 ∧
      bucket_fits b2 i ∧ i = bucket_index b2 val := by
  intro fuel
  induction fuel with
  | zero =>
      intro b val h1 hul hl8 hbins hz hs
      by_cases hfit : bucket_fits b (bucket_index b val)
      · refine ⟨b, bucket_index b val, ?_⟩
        rw [add_loop_unfold, if_pos hfit]
        exact ⟨rfl, h1, hul, hl8, rfl, rfl, le_refl _, hbins, hz, rfl, rfl, hfit, rfl⟩
      · -- the index is 0 or -1; not fitting forces upper = lower = 8,
        -- and one deflation makes it fit
        have hsmall := bucket_index_small b val (by omega)
        have hu8 : b.upper = 8 := by
          rcases hsmall with h | h <;> unfold bucket_fits at hfit <;> rw [h] at hfit <;>
            · push_neg at hfit
              omega
        have hl8e : b.lower = 8 := by omega
        obtain ⟨hup, hlow, hsh, hbase, -⟩ := buckets_deflate_fields b
        have h1d : 1 ≤ (buckets_deflate b).upper := by omega
        have huld : (buckets_deflate b).upper ≤ (buckets_deflate b).lower := by omega
        have hl8d : (buckets_deflate b).lower ≤ 8 := by omega
        have hsmalld := bucket_index_small (buckets_deflate b) val (by omega)
        have hfitd : bucket_fits (buckets_deflate b) (bucket_index (buckets_deflate b) val) := by
          unfold bucket_fits
          rcases hsmalld with h | h <;> rw [h] <;> omega
        obtain ⟨hc1, hc2⟩ := buckets_deflate_conserve b h1 hul hl8 hz
        refine ⟨buckets_deflate b, bucket_index (buckets_deflate b) val, ?_⟩
        rw [add_loop_unfold, if_neg hfit, add_loop_unfold, if_pos hfitd]
        exact ⟨rfl, h1d, huld, hl8d, hbase, (buckets_deflate_fields b).2.2.2.2, by omega,
          buckets_deflate_bins_lt b h1 hul hl8 hbins,
          buckets_deflate_zinv b h1 hul hl8, hc1, hc2, hfitd, rfl⟩
  | succ n ih =>
      intro b val h1 hul hl8 hbins hz hs
      by_cases hfit : bucket_fits b (bucket_index b val)
      · refine ⟨b, bucket_index b val, ?_⟩
        rw [show n + 1 + 2 = (n + 2) + 1 by omega, add_loop_unfold, if_pos hfit]
        exact ⟨rfl, h1, hul, hl8, rfl, rfl, le_refl _, hbins, hz, rfl, rfl, hfit, rfl⟩
      · obtain ⟨hup, hlow, hsh, hbase, hms⟩ := buckets_deflate_fields b
        have h1d : 1 ≤ (buckets_deflate b).upper := by omega
        have huld : (buckets_deflate b).upper ≤ (buckets_deflate b).lower := by omega
        have hl8d : (buckets_deflate b).lower ≤ 8 := by omega
        obtain ⟨hc1, hc2⟩ := buckets_deflate_conserve b h1 hul hl8 hz
        obtain ⟨b2, i, hrun, p1, p2, p3, p4, p5, p6, p7, p8, p9, p10, p11, p12⟩ :=
          ih (buckets_deflate b) val h1d huld hl8d
            (buckets_deflate_bins_lt b h1 hul hl8 hbins)
            (buckets_deflate_zinv b h1 hul hl8) (by omega)
        refine ⟨b2, i, ?_⟩
        rw [show n + 1 + 2 = (n + 2) + 1 by omega, add_loop_unfold, if_neg hfit, hrun]
        refine ⟨rfl, p1, p2, p3, by rw [p4, hbase], by rw [p5, hms], by omega,
          p7, p8, by rw [p9, hc1], by rw [p10, hc2], p11, p12⟩

theorem sum8_fset (f : Nat → Nat) (idx v : Nat) (h : idx < 8) :
    sum8 (fset f idx v) + f idx = sum8 f + v := by
  unfold sum8 fset
  interval_cases idx <;> simp <;> omega

theorem fset_at (f : Nat → Nat) (idx v : Nat) : fset f idx v idx = v := by
  unfold fset
  simp

theorem fset_ne (f : Nat → Nat) (idx v k : Nat) (h : k ≠ idx) : fset f idx v k = f k := by
  unfold fset
  simp [h]

theorem buckets_bump_spec (b : Buckets) (idx val : Nat) (hidx : idx < 8)
    (hval : val < U32)
    (hbins : ∀ k, k < 8 → b.accu k < U32 ∧ b.count k < 256) :
    (buckets_bump b idx val).upper = b.upper ∧
    (buckets_bump b idx val).lower = b.lower ∧
    (buckets_bump b idx val).shift = b.shift ∧
    (buckets_bump b idx val).base = b.base ∧
    (buckets_bump b idx val).min_shift = b.min_shift ∧
    (∀ k, k < 8 → (buckets_bump b idx val).accu k < U32 ∧
      (buckets_bump b idx val).count k < 256) ∧
    (∀ k, k < 8 → k ≠ idx → (buckets_bump b idx val).accu k = b.accu k ∧
      (buckets_bump b idx val).count k = b.count k) ∧
    sum8 (buckets_bump b idx val).accu % U32 = (sum8 b.accu + val) % U32 ∧
    sum8 (buckets_bump b idx val).count % 256 = (sum8 b.count + 1) % 256 := by
  have hU : 0 < U32 := by decide
  refine ⟨rfl, rfl, rfl, rfl, rfl, ?_, ?_, ?_, ?_⟩
  · intro k hk
    show fset b.accu idx ((b.accu idx + val) % U32) k < U32 ∧
      fset b.count idx ((b.count idx + 1) % 256) k < 256
    by_cases hke : k = idx
    · subst hke
      rw [fset_at, fset_at]
      exact ⟨Nat.mod_lt _ hU, Nat.mod_lt _ (by decide)⟩
    · rw [fset_ne _ _ _ _ hke, fset_ne _ _ _ _ hke]
      exact hbins k hk
  · intro k hk hke
    exact ⟨fset_ne _ _ _ _ hke, fset_ne _ _ _ _ hke⟩
  · have h1 := sum8_fset b.accu idx ((b.accu idx + val) % U32) hidx
    show sum8 (fset b.accu idx ((b.accu idx + val) % U32)) % U32 = _
    unfold U32 at h1 ⊢
    omega
  · have h1 := sum8_fset b.count idx ((b.count idx + 1) % 256) hidx
    show sum8 (fset b.count idx ((b.count idx + 1) % 256)) % 256 = _
    omega

theorem buckets_add_idx_some (b b2 : Buckets) (val : Nat) (i : Int)
    (hemp : ¬b.upper = 0) (hrun : add_loop val b 33 = some (b2, i)) :
    buckets_add_idx val b =
      (if i < 0 then
        some (buckets_bump
          (if (i + 8).toNat < b2.lower then { b2 with lower := (i + 8).toNat } else b2)
          (i + 8).toNat val, (i + 8).toNat)
      else
        some (buckets_bump
          (if b2.upper ≤ i.toNat then { b2 with upper := i.toNat + 1 } else b2)
          i.toNat val, i.toNat)) := by
  unfold buckets_add_idx
  simp only [if_neg hemp]
  rw [hrun]

theorem buckets_add_idx_some_empty (b b2 : Buckets) (val : Nat) (i : Int)
    (hemp : b.upper = 0)
    (hrun : add_loop val
      { b with shift := b.min_shift, base := val, upper := 1, lower := 8 } 33
      = some (b2, i)) :
    buckets_add_idx val b =
      (if i < 0 then
        some (buckets_bump
          (if (i + 8).toNat < b2.lower then { b2 with lower := (i + 8).toNat } else b2)
          (i + 8).toNat val, (i + 8).toNat)
      else
        some (buckets_bump
          (if b2.upper ≤ i.toNat then { b2 with upper := i.toNat + 1 } else b2)
          i.toNat val, i.toNat)) := by
  unfold buckets_add_idx
  simp only [if_pos hemp]
  rw [hrun]

/-- One `buckets_add` on a reachable state always succeeds, keeps the
state reachable, never decreases `shift`, and puts the inserted value
into a bin inside the (possibly widened) active window; bin totals
advance by the inserted value and by one count. -/
theorem buckets_add_idx_spec (b : Buckets) (val : Nat) (hval : val < U32)
    (hg : Good b) :
    ∃ b3 idx, buckets_add_idx val b = some (b3, idx) ∧ Good b3 ∧ 1 ≤ b3.upper ∧
      b3.min_shift = b.min_shift ∧ b.shift ≤ b3.shift ∧
      idx < 8 ∧ (idx < b3.upper ∨ b3.lower ≤ idx) ∧
      sum8 b3.accu % U32 = (sum8 b.accu + val) % U32 ∧
      sum8 b3.count % 256 = (sum8 b.count + 1) % 256 := by
  obtain ⟨hbins, hcase⟩ := hg
  have key : ∀ b0 : Buckets,
      1 ≤ b0.upper → b0.upper ≤ b0.lower → b0.lower ≤ 8 →
      (∀ k, k < 8 → b0.accu k < U32 ∧ b0.count k < 256) →
      (∀ k, k < 8 → b0.upper ≤ k → k < b0.lower → b0.accu k = 0 ∧ b0.count k = 0) →
      b0.base < U32 →
      ∃ b2 i, add_loop val b0 33 = some (b2, i) ∧
        (∃ b3 idx,
          (if i < 0 then
            some (buckets_bump
              (if (i + 8).toNat < b2.lower then { b2 with lower := (i + 8).toNat } else b2)
              (i + 8).toNat val, (i + 8).toNat)
          else
            some (buckets_bump
              (if b2.upper ≤ i.toNat then { b2 with upper := i.toNat + 1 } else b2)
              i.toNat val, i.toNat)) = some (b3, idx) ∧
          Good b3 ∧ 1 ≤ b3.upper ∧ b3.min_shift = b0.min_shift ∧ b0.shift ≤ b3.shift ∧
          idx < 8 ∧ (idx < b3.upper ∨ b3.lower ≤ idx) ∧
          sum8 b3.accu % U32 = (sum8 b0.accu + val) % U32 ∧
          sum8 b3.count % 256 = (sum8 b0.count + 1) % 256) := by
    intro b0 h1 hul hl8 hbins0 hz0 hbase0
    obtain ⟨b2, i, hrun, p1, p2, p3, p4, p5, p6, p7, p8, p9, p10, p11, p12⟩ :=
      add_loop_spec 31 b0 val h1 hul hl8 hbins0 hz0 (by omega)
    refine ⟨b2, i, hrun, ?_⟩
    unfold bucket_fits at p11
    by_cases hneg : i < 0
    · -- negative index, wrapped into the upper part of the window
      have hi8 : (i + 8).toNat < 8 := by omega
      have hi8u : b2.upper ≤ (i + 8).toNat := by omega
      obtain ⟨b2a, heq, w1, w2, w3, w4, w5, w6, w7⟩ :
          ∃ b2a : Buckets,
            (if (i + 8).toNat < b2.lower then { b2 with lower := (i + 8).toNat } else b2)
              = b2a ∧
            b2a.upper = b2.upper ∧ b2a.lower = min b2.lower ((i + 8).toNat) ∧
            b2a.shift = b2.shift ∧ b2a.base = b2.base ∧ b2a.min_shift = b2.min_shift ∧
            b2a.accu = b2.accu ∧ b2a.count = b2.count := by
        by_cases hlt : (i + 8).toNat < b2.lower
        · rw [if_pos hlt]
          refine ⟨_, rfl, rfl, ?_, rfl, rfl, rfl, rfl, rfl⟩
          show (i + 8).toNat = min b2.lower ((i + 8).toNat)
          omega
        · rw [if_neg hlt]
          refine ⟨b2, rfl, rfl, ?_, rfl, rfl, rfl, rfl, rfl⟩
          omega
      obtain ⟨q1, q2, q3, q4, q5, q6, q7, q8, q9⟩ :=
        buckets_bump_spec b2a ((i + 8).toNat) val hi8 hval
          (by intro k hk; rw [w6, w7]; exact p7 k hk)
      rw [w6] at q8
      rw [w7] at q9
      refine ⟨_, _, by rw [if_pos hneg, heq], ?_, ?_, ?_, ?_, hi8, ?_, ?_, ?_⟩
      · refine ⟨q6, Or.inr ⟨by omega, by omega, by omega, by rw [q4, w4]; omega, ?_⟩⟩
        intro k hk hku hkl
        rw [q1, w1] at hku
        rw [q2, w2] at hkl
        obtain ⟨e1, e2⟩ := q7 k hk (by omega)
        rw [e1, e2, w6, w7]
        exact p8 k hk (by omega) (by omega)
      · omega
      · rw [q5, w5]
        exact p5
      · omega
      · right
        rw [q2, w2]
        omega
      · rw [q8]
        unfold U32 at p9 ⊢
        omega
      · rw [q9]
        omega
    · -- non-negative index
      have hiN : i.toNat < 8 := by omega
      have hiNl : i.toNat < b2.lower := by omega
      obtain ⟨b2a, heq, w1, w2, w3, w4, w5, w6, w7⟩ :
          ∃ b2a : Buckets,
            (if b2.upper ≤ i.toNat then { b2 with upper := i.toNat + 1 } else b2) = b2a ∧
            b2a.upper = max b2.upper (i.toNat + 1) ∧ b2a.lower = b2.lower ∧
            b2a.shift = b2.shift ∧ b2a.base = b2.base ∧ b2a.min_shift = b2.min_shift ∧
            b2a.accu = b2.accu ∧ b2a.count = b2.count := by
        by_cases hlt : b2.upper ≤ i.toNat
        · rw [if_pos hlt]
          refine ⟨_, rfl, ?_, rfl, rfl, rfl, rfl, rfl, rfl⟩
          show i.toNat + 1 = max b2.upper (i.toNat + 1)
          omega
        · rw [if_neg hlt]
          refine ⟨b2, rfl, ?_, rfl, rfl, rfl, rfl, rfl, rfl⟩
          omega
      obtain ⟨q1, q2, q3, q4, q5, q6, q7, q8, q9⟩ :=
        buckets_bump_spec b2a (i.toNat) val hiN hval
          (by intro k hk; rw [w6, w7]; exact p7 k hk)
      rw [w6] at q8
      rw [w7] at q9
      refine ⟨_, _, by rw [if_neg hneg, heq], ?_, ?_, ?_, ?_, hiN, ?_, ?_, ?_⟩
      · refine ⟨q6, Or.inr ⟨by omega, by omega, by omega, by rw [q4, w4]; omega, ?_⟩⟩
        intro k hk hku hkl
        rw [q1, w1] at hku
        rw [q2, w2] at hkl
        obtain ⟨e1, e2⟩ := q7 k hk (by omega)
        rw [e1, e2, w6, w7]
        exact p8 k hk (by omega) (by omega)
      · omega
      · rw [q5, w5]
        exact p5
      · omega
      · left
        rw [q1, w1]
        omega
      · rw [q8]
        unfold U32 at p9 ⊢
        omega
      · rw [q9]
        omega
  rcases hcase with ⟨hu0, hl0, hs0, hzero⟩ | ⟨h1, hul, hl8, hbase, hz⟩
  · have hb0 := key { b with shift := b.min_shift, base := val, upper := 1, lower := 8 }
      (Nat.le_refl 1) (show (1:Nat) ≤ 8 by decide) (show (8:Nat) ≤ 8 by decide)
      (by intro k hk; exact hbins k hk)
      (by intro k hk h1k h8k; exact (hzero k hk)) hval
    obtain ⟨b2, i, hrun, b3, idx, hres, r1, r2, r3, r4, r5, r6, r7, r8⟩ := hb0
    refine ⟨b3, idx, ?_, r1, r2, r3, by rw [hs0]; omega, r5, r6, r7, r8⟩
    rw [buckets_add_idx_some_empty b b2 val i hu0 hrun]
    exact hres
  · have hb0 := key b h1 hul hl8 hbins hz hbase
    obtain ⟨b2, i, hrun, b3, idx, hres, r1, r2, r3, r4, r5, r6, r7, r8⟩ := hb0
    refine ⟨b3, idx, ?_, r1, r2, r3, r4, r5, r6, r7, r8⟩
    rw [buckets_add_idx_some b b2 val i (by omega) hrun]
    exact hres

theorem good_occupied (b : Buckets) (hg : Good b) : occupied b ≤ 8 := by
  obtain ⟨-, h | h⟩ := hg
  · unfold occupied
    omega
  · unfold occupied
    omega

theorem good_reset_init (ms : Nat) : Good (buckets_reset (buckets_init ms)) := by
  refine ⟨fun i _ => ⟨?_, ?_⟩, Or.inl ⟨rfl, rfl, rfl, fun i _ => ⟨rfl, rfl⟩⟩⟩
  · show (0:Nat) < U32
    norm_num [U32]
  · show (0:Nat) < 256
    norm_num

theorem buckets_add_some (b b3 : Buckets) (idx val : Nat)
    (h : buckets_add_idx val b = some (b3, idx)) : buckets_add val b = some b3 := by
  unfold buckets_add
  rw [h]
  rfl

theorem buckets_runFrom_cons (b : Buckets) (v : Nat) (xs : List Nat) :
    buckets_runFrom b (v :: xs) =
      match buckets_add v b with
      | none => none
      | some b2 => buckets_runFrom b2 xs := rfl

theorem buckets_runFrom_spec (vals : List Nat) : ∀ b : Buckets, Good b →
    (∀ v ∈ vals, v < U32) →
    ∃ b2, buckets_runFrom b vals = some b2 ∧ Good b2 ∧ b.shift ≤ b2.shift ∧
      b2.min_shift = b.min_shift ∧
      sum8 b2.count % 256 = (sum8 b.count + vals.length) % 256 ∧
      sum8 b2.accu % U32 = (sum8 b.accu + vals.sum) % U32 := by
  induction vals with
  | nil =>
      intro b hg _
      exact ⟨b, rfl, hg, Nat.le_refl _, rfl, rfl, rfl⟩
  | cons v rest ih =>
      intro b hg hv
      obtain ⟨b3, idx, hadd, hg3, hup3, hms3, hsh3, hidx8, hwin, hacc3, hcnt3⟩ :=
        buckets_add_idx_spec b v (hv v (List.mem_cons_self v rest)) hg
      obtain ⟨b2, hrun, hg2, hsh2, hms2, hcnt2, hacc2⟩ :=
        ih b3 hg3 (fun w hw => hv w (List.mem_cons_of_mem v hw))
      refine ⟨b2, ?_, hg2, by omega, by rw [hms2, hms3], ?_, ?_⟩
      · have hb : buckets_add v b = some b3 := buckets_add_some b b3 idx v hadd
        rw [buckets_runFrom_cons, hb]
        exact hrun
      · simp only [List.length_cons]
        omega
      · simp only [List.sum_cons]
        unfold U32 at hacc2 hacc3 ⊢
        omega

theorem buckets_runFrom_append (p s : List Nat) : ∀ b : Buckets,
    buckets_runFrom b (p ++ s) =
      match buckets_runFrom b p with
      | none => none
      | some b2 => buckets_runFrom b2 s := by
  induction p with
  | nil =>
      intro b
      rfl
  | cons v rest ih =>
      intro b
      show buckets_runFrom b (v :: (rest ++ s)) = _
      rw [buckets_runFrom_cons b v (rest ++ s), buckets_runFrom_cons b v rest]
      cases hb : buckets_add v b with
      | none => rfl
      | some b2 => exact ih b2

/-- **C2**: in a session (a reset followed by in-range insertions), at
every position of the insertion list the `buckets_add` call terminates
successfully with its bin index inside the active window, the occupied
window never exceeds 8 bins, and `shift` never decreases — neither at
that call nor over the rest of the session. -/
theorem buckets_c2_session (ms : Nat) (vals p : List Nat) (v : Nat) (s : List Nat)
    (hsplit : vals = p ++ v :: s) (hv : ∀ w ∈ vals, w < U32) :
    ∃ bmid b3 idx bf,
      buckets_runFrom (buckets_reset (buckets_init ms)) p = some bmid ∧
      buckets_add_idx v bmid = some (b3, idx) ∧
      buckets_runFrom b3 s = some bf ∧
      buckets_session ms vals = some bf ∧
      occupied bmid ≤ 8 ∧ occupied b3 ≤ 8 ∧ occupied bf ≤ 8 ∧
      idx < 8 ∧ (idx < b3.upper ∨ b3.lower ≤ idx) ∧
      bmid.shift ≤ b3.shift ∧ b3.shift ≤ bf.shift := by
  subst hsplit
  have hg0 := good_reset_init ms
  obtain ⟨bmid, hrunp, hgmid, -, -, -, -⟩ :=
    buckets_runFrom_spec p _ hg0 (fun w hw => hv w (List.mem_append_left _ hw))
  have hvv : v < U32 := hv v (List.mem_append_right _ (List.mem_cons_self v s))
  obtain ⟨b3, idx, hadd, hg3, -, -, hsh3, hidx8, hwin, -, -⟩ :=
    buckets_add_idx_spec bmid v hvv hgmid
  obtain ⟨bf, hruns, hgf, hshf, -, -, -⟩ :=
    buckets_runFrom_spec s b3 hg3
      (fun w hw => hv w (List.mem_append_right _ (List.mem_cons_of_mem v hw)))
  refine ⟨bmid, b3, idx, bf, hrunp, hadd, hruns, ?_, good_occupied _ hgmid,
    good_occupied _ hg3, good_occupied _ hgf, hidx8, hwin, hsh3, hshf⟩
  unfold buckets_session
  rw [buckets_runFrom_append p (v :: s) _, hrunp]
  show buckets_runFrom bmid (v :: s) = some bf
  rw [buckets_runFrom_cons, buckets_add_some bmid b3 idx v hadd]
  exact hruns

/-- Witness for the C2 theorem at the concrete session `[2, 5, 9]`,
split around its middle insertion. -/
theorem buckets_c2_session_witness :
    ([2, 5, 9] = [2] ++ 5 :: [9]) ∧ (∀ w ∈ [2, 5, 9], w < U32) ∧
    (∃ bmid b3 idx bf,
      buckets_runFrom (buckets_reset (buckets_init 0)) [2] = some bmid ∧
      buckets_add_idx 5 bmid = some (b3, idx) ∧
      buckets_runFrom b3 [9] = some bf ∧
      buckets_session 0 [2, 5, 9] = some bf ∧
      occupied bmid ≤ 8 ∧ occupied b3 ≤ 8 ∧ occupied bf ≤ 8 ∧
      idx < 8 ∧ (idx < b3.upper ∨ b3.lower ≤ idx) ∧
      bmid.shift ≤ b3.shift ∧ b3.shift ≤ bf.shift) :=
  ⟨rfl, by decide, buckets_c2_session 0 [2, 5, 9] [2] 5 [9] rfl (by decide)⟩

/-- **C3 counterexample**: the per-bin counts are `uint8_t` and wrap at
256, so a session of 256 insertions of the same value ends with the bin
counts summing to 0, not to the number of `buckets_add` calls (256). -/
theorem buckets_c3_cex :
    Option.map (fun b => sum8 b.count) (buckets_session 0 (List.replicate 256 5))
      = some 0 ∧
    (List.replicate 256 5).length = 256 ∧ (0 : Nat) ≠ 256 := by
  refine ⟨?_, rfl, by decide⟩
  rfl

/-- **C3 amended**: modulo the machine widths (counts are `uint8_t`,
accumulators `uint32_t`), after a session the bin counts sum to the
number of insertions mod 256 and the bin accumulators sum to the total
of the inserted values mod 2^32. -/
theorem buckets_c3_amended (ms : Nat) (vals : List Nat) (hv : ∀ v ∈ vals, v < U32) :
    ∃ b, buckets_session ms vals = some b ∧
      sum8 b.count % 256 = vals.length % 256 ∧
      sum8 b.accu % U32 = vals.sum % U32 := by
  obtain ⟨b, hrun, -, -, -, hcnt, hacc⟩ :=
    buckets_runFrom_spec vals _ (good_reset_init ms) hv
  refine ⟨b, ?_, ?_, ?_⟩
  · show buckets_runFrom (buckets_reset (buckets_init ms)) vals = some b
    exact hrun
  · have h0 : sum8 (buckets_reset (buckets_init ms)).count = 0 := rfl
    rw [h0] at hcnt
    simpa using hcnt
  · have h0 : sum8 (buckets_reset (buckets_init ms)).accu = 0 := rfl
    rw [h0] at hacc
    simpa using hacc

/-- Witness for the amended C3 theorem at the session `[3, 4]`. -/
theorem buckets_c3_amended_witness :
    (∀ v ∈ [3, 4], v < U32) ∧
    (∃ b, buckets_session 0 [3, 4] = some b ∧
      sum8 b.count % 256 = [3, 4].length % 256 ∧
      sum8 b.accu % U32 = [3, 4].sum % U32) :=
  ⟨by decide, buckets_c3_amended 0 [3, 4] (by decide)⟩

/-- **C4**: on a non-empty valid window, one `buckets_deflate` merges
adjacent bin pairs pairwise from both ends of the window inward (an odd
leftover bin at either end is copied unmerged), increments `shift` by
one, zeroes the now-unused interior slots, halves the window, and
leaves at most 5 occupied bins; absent machine-width overflow the
merged bins exactly equal the pre-deflate neighbor-pair sums. -/
theorem buckets_c4_deflate (b : Buckets)
    (h1 : 1 ≤ b.upper) (hul : b.upper ≤ b.lower) (hl8 : b.lower ≤ 8)
    (hacc : ∀ i, i < 8 → ∀ j, j < 8 → b.accu i + b.accu j < U32)
    (hcnt : ∀ i, i < 8 → ∀ j, j < 8 → b.count i + b.count j < 256) :
    (buckets_deflate b).upper = (b.upper + 1) / 2 ∧
    (buckets_deflate b).lower = (8 + b.lower) / 2 ∧
    (buckets_deflate b).shift = b.shift + 1 ∧
    occupied (buckets_deflate b) ≤ 5 ∧
    (∀ k, (b.upper + 1) / 2 ≤ k → k < (8 + b.lower) / 2 →
      (buckets_deflate b).accu k = 0 ∧ (buckets_deflate b).count k = 0) ∧
    (∀ k, 2 * k + 1 < b.upper →
      (buckets_deflate b).accu k = b.accu (2 * k) + b.accu (2 * k + 1) ∧
      (buckets_deflate b).count k = b.count (2 * k) + b.count (2 * k + 1)) ∧
    (∀ k, 2 * k + 1 = b.upper →
      (buckets_deflate b).accu k = b.accu (2 * k) ∧
      (buckets_deflate b).count k = b.count (2 * k)) ∧
    (∀ k, k ≤ 7 → b.lower + 8 ≤ 2 * k →
      (buckets_deflate b).accu k = b.accu (2 * k - 8) + b.accu (2 * k - 8 + 1) ∧
      (buckets_deflate b).count k = b.count (2 * k - 8) + b.count (2 * k - 8 + 1)) ∧
    (∀ k, 2 * k + 1 = b.lower + 8 →
      (buckets_deflate b).accu k = b.accu b.lower ∧
      (buckets_deflate b).count k = b.count b.lower) := by
  obtain ⟨hup, hlow, hsh, hbase, hms⟩ := buckets_deflate_fields b
  refine ⟨hup, hlow, hsh, ?_, ?_, ?_, ?_, ?_, ?_⟩
  · unfold occupied
    rw [hup, hlow]
    omega
  · intro k hk1 hk2
    have hk7 : k ≤ 7 := by omega
    constructor
    · rw [buckets_deflate_accu_char b k hk7 h1 hul hl8, if_pos ⟨hk1, hk2⟩]
    · rw [buckets_deflate_count_char b k hk7 h1 hul hl8, if_pos ⟨hk1, hk2⟩]
  · intro k hku
    have hk7 : k ≤ 7 := by omega
    constructor
    · rw [buckets_deflate_accu_char b k hk7 h1 hul hl8, if_neg (by omega),
        if_neg (by omega), if_neg (by omega), if_neg (by omega),
        if_pos ⟨hku, by omega⟩]
      exact Nat.mod_eq_of_lt (hacc _ (by omega) _ (by omega))
    · rw [buckets_deflate_count_char b k hk7 h1 hul hl8, if_neg (by omega),
        if_neg (by omega), if_neg (by omega), if_neg (by omega),
        if_pos ⟨hku, by omega⟩]
      exact Nat.mod_eq_of_lt (hcnt _ (by omega) _ (by omega))
  · intro k hku
    have hk7 : k ≤ 7 := by omega
    constructor
    · rw [buckets_deflate_accu_char b k hk7 h1 hul hl8, if_neg (by omega),
        if_neg (by omega), if_neg (by omega), if_pos hku]
    · rw [buckets_deflate_count_char b k hk7 h1 hul hl8, if_neg (by omega),
        if_neg (by omega), if_neg (by omega), if_pos hku]
  · intro k hk7 hkl
    constructor
    · rw [buckets_deflate_accu_char b k hk7 h1 hul hl8, if_neg (by omega),
        if_neg (by omega), if_pos hkl]
      exact Nat.mod_eq_of_lt (hacc _ (by omega) _ (by omega))
    · rw [buckets_deflate_count_char b k hk7 h1 hul hl8, if_neg (by omega),
        if_neg (by omega), if_pos hkl]
      exact Nat.mod_eq_of_lt (hcnt _ (by omega) _ (by omega))
  · intro k hkl
    have hk7 : k ≤ 7 := by omega
    constructor
    · rw [buckets_deflate_accu_char b k hk7 h1 hul hl8, if_neg (by omega),
        if_pos hkl]
    · rw [buckets_deflate_count_char b k hk7 h1 hul hl8, if_neg (by omega),
        if_pos hkl]

/-- Witness for the C4 theorem on the concrete state `bex4`. -/
theorem buckets_c4_deflate_witness :
    (1 ≤ bex4.upper) ∧ (bex4.upper ≤ bex4.lower) ∧ (bex4.lower ≤ 8) ∧
    (∀ i, i < 8 → ∀ j, j < 8 → bex4.accu i + bex4.accu j < U32) ∧
    (∀ i, i < 8 → ∀ j, j < 8 → bex4.count i + bex4.count j < 256) ∧
    (buckets_deflate bex4).shift = bex4.shift + 1 ∧
    occupied (buckets_deflate bex4) ≤ 5 :=
  ⟨by decide, by decide, by decide, by decide, by decide,
    (buckets_c4_deflate bex4 (by decide) (by decide) (by decide) (by decide)
      (by decide)).2.2.1,
    (buckets_c4_deflate bex4 (by decide) (by decide) (by decide) (by decide)
      (by decide)).2.2.2.1⟩
